import Mathlib

/-!
Verification development for the `rosa_core` package: a shallow embedding of
the transform-graph resolver (`case_loader.py`), the electrode model matcher
(`assignments.py`), the contact placement engine (`contacts.py`), the
electrode-axis fitter (`contact_fit.py`) and the QC metric engine (`qc.py`),
together with theorems settling the specification claims.

Modelling conventions:
* Python floats are modelled as exact rationals (`ℚ`); decimal literals such
  as `1e-9`, `0.45`, `0.9` denote the corresponding exact rationals.
* `x ** 0.5` / `math.sqrt` / `np.linalg.norm` are modelled by `Rat.sqrt`,
  which agrees with the real square root exactly on squares of rationals
  (`Rat.sqrt_eq`); theorems that need the square root to be exact carry an
  explicit perfect-square hypothesis.
* `math.acos`-based angle computation and `np.linalg.eigh`-based PCA axis
  extraction are real-valued library operations with no rational closed form;
  they are threaded through the embedding as explicit function parameters
  (`acosDeg`, `pcaAxis`).
* numpy's seeded `default_rng(seed).choice(n, size=2, replace=False)` is
  modelled by `rngPairs`, a deterministic pure function of the seed that
  produces pairs of distinct indices (the exact PCG64 stream is not modelled,
  only its determinism and the distinctness guarantee of `replace=False`).
* Python exceptions are modelled with `Except`: a raised `ValueError` is an
  `.error`, a normal return is an `.ok`.
* A `dict` is modelled as an association list; `sorted` is modelled by
  `pySorted`, a stable insertion sort, and `<` on Python strings by
  lexicographic comparison of the character lists.
-/

/-- `Rat.sqrt` is exact on squares of nonnegative rationals. -/
theorem ratSqrt_sq (a : ℚ) (h : 0 ≤ a) : Rat.sqrt (a ^ 2) = a := by
  rw [pow_two, Rat.sqrt_eq, abs_of_nonneg h]

/-- Stable insertion of `x` into `l`: `x` is placed before the first element
`y` with `lt x y`, hence after all elements it does not strictly precede.
This matches the stability contract of Python's `sorted`. -/
def insertSorted (lt : α → α → Bool) (x : α) : List α → List α
  | [] => [x]
  | y :: ys => if lt x y then x :: y :: ys else y :: insertSorted lt x ys

/-- Stable sort modelling Python's `sorted` with strict comparison `lt`. -/
def pySorted (lt : α → α → Bool) (l : List α) : List α :=
  l.foldl (fun acc x => insertSorted lt x acc) []

/-- Python `<` on strings: lexicographic comparison by code point. -/
def pyStrLt (a b : String) : Bool := decide (a.data < b.data)

/-- Python `enumerate(xs, start=k)`. -/
def enumerateFrom (k : Nat) : List α → List (Nat × α)
  | [] => []
  | x :: xs => (k, x) :: enumerateFrom (k + 1) xs

theorem enumerateFrom_length (k : Nat) (l : List α) :
    (enumerateFrom k l).length = l.length := by
  induction l generalizing k with
  | nil => rfl
  | cons x xs ih => simp [enumerateFrom, ih]

theorem enumerateFrom_getElem? (k : Nat) (l : List α) (i : Nat) (h : i < l.length) :
    (enumerateFrom k l)[i]? = l[i]?.map (fun x => (k + i, x)) := by
  induction l generalizing k i with
  | nil => simp at h
  | cons x xs ih =>
    cases i with
    | zero => simp [enumerateFrom]
    | succ j =>
      have hj : j < xs.length := by simpa using h
      simp only [enumerateFrom, List.getElem?_cons_succ]
      rw [ih (k + 1) j hj]
      have : k + 1 + j = k + (j + 1) := by omega
      simp [this]

/-! ## Geometry primitives

3D points/vectors in a fixed coordinate convention, mirroring the plain
3-element Python lists used throughout `rosa_core` (`_sub`, `_add`, `_mul`,
`_norm` in `contacts.py`; `_vsub`, `_vadd`, `_vmul`, `_vdot`, `_vnorm` in
`qc.py`; numpy 3-vectors in `contact_fit.py`). -/

structure Vec3 where
  x : ℚ
  y : ℚ
  z : ℚ
deriving DecidableEq, Repr

instance : Inhabited Vec3 := ⟨⟨0, 0, 0⟩⟩

/-- Vector addition `a + b` (Python `_add` / numpy `+`). -/
def vadd (a b : Vec3) : Vec3 := ⟨a.x + b.x, a.y + b.y, a.z + b.z⟩

/-- Vector subtraction `a - b` (Python `_sub` / numpy `-`). -/
def vsub (a b : Vec3) : Vec3 := ⟨a.x - b.x, a.y - b.y, a.z - b.z⟩

/-- Scalar multiplication `v * s` (Python `_mul` / numpy `*`). -/
def vsmul (s : ℚ) (v : Vec3) : Vec3 := ⟨v.x * s, v.y * s, v.z * s⟩

/-- Dot product (Python `_vdot` / numpy `@`). -/
def vdot (a b : Vec3) : ℚ := a.x * b.x + a.y * b.y + a.z * b.z

/-- Squared Euclidean norm. -/
def vnormSq (v : Vec3) : ℚ := v.x ^ 2 + v.y ^ 2 + v.z ^ 2

/-- Euclidean norm, `(x²+y²+z²) ** 0.5`, modelled with `Rat.sqrt`. -/
def vnorm (v : Vec3) : ℚ := Rat.sqrt (vnormSq v)

/-- `_unit` / `unit` / `_vunit`: normalized vector; the source raises
`ValueError` when the norm is ≤ 1e-9, modelled as `none`. -/
def vunit? (v : Vec3) : Option Vec3 :=
  let n := vnorm v
  if n ≤ 1e-9 then none else some ⟨v.x / n, v.y / n, v.z / n⟩

theorem vnormSq_nonneg (v : Vec3) : 0 ≤ vnormSq v := by
  have hx := sq_nonneg v.x
  have hy := sq_nonneg v.y
  have hz := sq_nonneg v.z
  simp only [vnormSq]
  linarith

theorem vnormSq_vsub_comm (a b : Vec3) : vnormSq (vsub a b) = vnormSq (vsub b a) := by
  simp only [vnormSq, vsub]
  ring

/-- When the squared norm is a perfect square `r²` with `r ≥ 0`, the modelled
norm is exactly `r`. -/
theorem vnorm_eq_of_sq (v : Vec3) (r : ℚ) (hr : 0 ≤ r) (h : vnormSq v = r ^ 2) :
    vnorm v = r := by
  rw [vnorm, h, ratSqrt_sq r hr]

theorem vnorm_zero : vnorm ⟨0, 0, 0⟩ = 0 := by
  have h : vnormSq ⟨0, 0, 0⟩ = 0 ^ 2 := by simp [vnormSq]
  rw [vnorm, h, ratSqrt_sq 0 le_rfl]

/-! ## `transforms.py` (4×4 affine helpers used by the resolver)

`matmul_4x4` implements ordinary matrix multiplication of 4×4 matrices and
`identity_4x4` the 4×4 identity, so they are embedded as `Matrix` `*` / `1`
over `ℚ`. -/

abbrev M4 := Matrix (Fin 4) (Fin 4) ℚ

/-- `transforms.matmul_4x4`. -/
def matmul_4x4 (a b : M4) : M4 := a * b

/-- `transforms.identity_4x4`. -/
def identity_4x4 : M4 := 1

/-! ## `case_loader.py`: the transform-graph resolver -/

/-- A display record as consumed by `build_effective_matrices`: the
`TRdicomRdisplay` matrix (`i -> imagery_3dref(i)`) and the optional
`IMAGERY_3DREF` parent reference. -/
structure Frame where
  matrix : M4
  imagery_3dref : Option Int

instance : Inhabited Frame := ⟨⟨1, none⟩⟩

/-- Errors raised by `build_effective_matrices` (`ValueError`s in the source).
`fuelExhausted` is an artifact of the fuel-based embedding of the recursion;
the theorems below show it never occurs with fuel `n + 1`. -/
inductive LoaderErr where
  | cycleAt (i : Nat)
  | invalidRef (i : Nat) (r : Int)
  | invalidRoot (r : Nat)
  | fuelExhausted
deriving DecidableEq, Repr

/-- The normalized reference of display `i`: missing `IMAGERY_3DREF` falls
back to the root index (the `refs` normalization loop of
`build_effective_matrices`). -/
def normRef (ds : List Frame) (root : Nat) (i : Nat) : Int :=
  match (ds.getD i default).imagery_3dref with
  | none => (root : Int)
  | some r => r

/-- `to_root` of `build_effective_matrices`: recursive chain composition with
cycle detection via the `active` set (here the list of indices on the current
call stack).  Memoization (`cache`) only affects complexity, not the computed
values or the raised errors, and is dropped; the recursion is bounded by an
explicit fuel instead of the Python call stack. -/
def to_root (ds : List Frame) (root : Nat) : Nat → List Nat → Nat → Except LoaderErr M4
  | 0, _, _ => .error .fuelExhausted
  | fuel + 1, active, i =>
    if i = root then .ok identity_4x4
    else if i ∈ active then .error (.cycleAt i)
    else
      let p := normRef ds root i
      if 0 ≤ p ∧ p.toNat < ds.length then
        match to_root ds root fuel (i :: active) p.toNat with
        | .error e => .error e
        | .ok parent_to_root =>
          -- i -> root = (parent -> root) * (i -> parent)
          .ok (matmul_4x4 parent_to_root (ds.getD i default).matrix)
      else .error (.invalidRef i p)

/-- Sequential driver of the `for i in range(n): to_root(i)` loop: the first
raised error aborts the whole call, otherwise all results are collected. -/
def runAll (f : Nat → Except LoaderErr M4) : List Nat → Except LoaderErr (List M4)
  | [] => .ok []
  | i :: rest =>
    match f i with
    | .error e => .error e
    | .ok m =>
      match runAll f rest with
      | .error e => .error e
      | .ok ms => .ok (m :: ms)

/-- `case_loader.build_effective_matrices`. -/
def build_effective_matrices (ds : List Frame) (root : Nat) : Except LoaderErr (List M4) :=
  let n := ds.length
  if n = 0 then .ok []
  else if n ≤ root then .error (.invalidRoot root)
  else runAll (fun i => to_root ds root (n + 1) [] i) (List.range n)

/-- Spec-side definition (refinement target), following the specification's
words: "`to_root(root_index) = identity`.  For any other index `i`,
`to_root(i) = to_root(parent(i)) ∘ matrix(i)` (matrix composition order
matters: apply child-to-parent last, i.e. `composed = parent_to_root ×
i_to_parent`)" — the matrix product along the traced parent chain from `i`
to the root, with fuel bounding the traced chain length. -/
def chainToRoot (ds : List Frame) (root : Nat) : Nat → Nat → M4
  | 0, _ => 1
  | fuel + 1, i =>
    if i = root then 1
    else chainToRoot ds root fuel (normRef ds root i).toNat * (ds.getD i default).matrix

/-- `k`-fold iteration of the (normalized) parent reference. -/
def iterRef (ds : List Frame) (root : Nat) : Nat → Nat → Nat
  | 0, i => i
  | k + 1, i => iterRef ds root k (normRef ds root i).toNat

/-- Validity of all parent references: every non-root frame's normalized
reference is an in-range index. -/
abbrev ValidRefs (ds : List Frame) (root : Nat) : Prop :=
  ∀ i, i < ds.length → i ≠ root →
    0 ≤ normRef ds root i ∧ (normRef ds root i).toNat < ds.length

/-- Acyclicity witness: a depth function strictly decreasing along parent
links away from the root.  Any acyclic reference graph admits one with
`d i ≤ n`. -/
abbrev DepthFn (ds : List Frame) (root : Nat) (d : Nat → Nat) : Prop :=
  ∀ i, i < ds.length → i ≠ root →
    d ((normRef ds root i).toNat) < d i

theorem chainToRoot_fuel_congr (ds : List Frame) (root : Nat) (d : Nat → Nat)
    (hv : ValidRefs ds root) (hd : DepthFn ds root d) :
    ∀ k i, i < ds.length → d i = k → ∀ f g, k < f → k < g →
      chainToRoot ds root f i = chainToRoot ds root g i := by
  intro k
  induction k using Nat.strong_induction_on with
  | _ k ih =>
    intro i hi hk f g hf hg
    obtain ⟨f, rfl⟩ : ∃ f', f = f' + 1 := ⟨f - 1, by omega⟩
    obtain ⟨g, rfl⟩ : ∃ g', g = g' + 1 := ⟨g - 1, by omega⟩
    by_cases hir : i = root
    · simp [chainToRoot, hir]
    · have hdp := hd i hi hir
      have hvp := hv i hi hir
      simp only [chainToRoot, if_neg hir]
      rw [ih (d ((normRef ds root i).toNat)) (by omega) _ hvp.2 rfl f g (by omega) (by omega)]

theorem to_root_acyclic (ds : List Frame) (root : Nat) (d : Nat → Nat)
    (hv : ValidRefs ds root) (hd : DepthFn ds root d) :
    ∀ k i, i < ds.length → d i = k → ∀ fuel active, k < fuel →
      (∀ a ∈ active, d i < d a) →
      to_root ds root fuel active i = .ok (chainToRoot ds root fuel i) := by
  intro k
  induction k using Nat.strong_induction_on with
  | _ k ih =>
    intro i hi hk fuel active hfuel hact
    obtain ⟨fuel, rfl⟩ : ∃ f', fuel = f' + 1 := ⟨fuel - 1, by omega⟩
    by_cases hir : i = root
    · simp [to_root, chainToRoot, hir, identity_4x4]
    · have hnot : i ∉ active := by
        intro hmem
        exact absurd (hact i hmem) (lt_irrefl _)
      have hvp := hv i hi hir
      have hdp := hd i hi hir
      simp only [to_root, if_neg hir, if_pos hvp]
      rw [if_neg hnot]
      have hrec := ih (d ((normRef ds root i).toNat)) (by omega)
        ((normRef ds root i).toNat) hvp.2 rfl fuel (i :: active) (by omega)
        (by
          intro a ha
          rcases List.mem_cons.mp ha with h | h
          · subst h; omega
          · have := hact a h; omega)
      rw [hrec]
      simp only [chainToRoot, if_neg hir, matmul_4x4]

theorem runAll_ok (f : Nat → Except LoaderErr M4) (g : Nat → M4) (l : List Nat)
    (h : ∀ i ∈ l, f i = .ok (g i)) : runAll f l = .ok (l.map g) := by
  induction l with
  | nil => rfl
  | cons i rest ih =>
    simp only [runAll, h i (by simp), ih (fun j hj => h j (by simp [hj])), List.map]

/-- C1.  For every acyclic frame list with valid parent references and every
in-range `root_index`, `build_effective_matrices` succeeds and returns, for
each frame `i`, exactly the matrix product along the traced parent chain from
`i` to the root (`chainToRoot`): the root frame gets exactly the 4×4
identity, and every other frame satisfies the chain recursion
`to_root(i) = to_root(parent(i)) × matrix(i)`, composing child-to-parent
last. -/
theorem c1_build_effective_matrices_chain
    (ds : List Frame) (root : Nat) (d : Nat → Nat)
    (hroot : root < ds.length)
    (hv : ValidRefs ds root)
    (hd : DepthFn ds root d)
    (hbound : ∀ i, i < ds.length → d i ≤ ds.length) :
    ∃ l, build_effective_matrices ds root = .ok l ∧
      l.length = ds.length ∧
      (∀ i, i < ds.length → l[i]? = some (chainToRoot ds root (ds.length + 1) i)) ∧
      chainToRoot ds root (ds.length + 1) root = identity_4x4 ∧
      (∀ i, i < ds.length → i ≠ root →
        chainToRoot ds root (ds.length + 1) i =
          matmul_4x4 (chainToRoot ds root (ds.length + 1) (normRef ds root i).toNat)
            (ds.getD i default).matrix) := by
  have hn0 : ds.length ≠ 0 := by omega
  refine ⟨(List.range ds.length).map (fun i => chainToRoot ds root (ds.length + 1) i),
    ?_, ?_, ?_, ?_, ?_⟩
  · simp only [build_effective_matrices, if_neg hn0, if_neg (by omega : ¬ ds.length ≤ root)]
    exact runAll_ok _ _ _ (fun i hi => by
      have hilt : i < ds.length := List.mem_range.mp hi
      exact to_root_acyclic ds root d hv hd (d i) i hilt rfl (ds.length + 1) []
        (by have := hbound i hilt; omega) (by simp))
  · simp
  · intro i hi
    rw [List.getElem?_map, List.getElem?_range hi]
    rfl
  · simp [chainToRoot, identity_4x4]
  · intro i hi hir
    have hvp := hv i hi hir
    have hdp := hd i hi hir
    conv_lhs => rw [chainToRoot]
    rw [if_neg hir, matmul_4x4]
    rw [chainToRoot_fuel_congr ds root d hv hd (d ((normRef ds root i).toNat))
      ((normRef ds root i).toNat) hvp.2 rfl ds.length (ds.length + 1)
      (by have := hbound i hi; omega) (by have := hbound i hi; omega)]

/-- Concrete three-frame chain `2 → 1 → 0` with root `0`, for the C1 witness. -/
def c1ExampleFrames : List Frame :=
  [⟨1, none⟩,
   ⟨!![1,0,0,2; 0,1,0,0; 0,0,1,0; 0,0,0,1], some 0⟩,
   ⟨!![1,0,0,0; 0,1,0,3; 0,0,1,0; 0,0,0,1], some 1⟩]

theorem c1_build_effective_matrices_chain_witness :
    (0 < c1ExampleFrames.length ∧ ValidRefs c1ExampleFrames 0 ∧
      DepthFn c1ExampleFrames 0 id ∧
      (∀ i, i < c1ExampleFrames.length → id i ≤ c1ExampleFrames.length)) ∧
    (∃ l, build_effective_matrices c1ExampleFrames 0 = .ok l ∧
      l.length = c1ExampleFrames.length ∧
      (∀ i, i < c1ExampleFrames.length →
        l[i]? = some (chainToRoot c1ExampleFrames 0 (c1ExampleFrames.length + 1) i)) ∧
      chainToRoot c1ExampleFrames 0 (c1ExampleFrames.length + 1) 0 = identity_4x4 ∧
      (∀ i, i < c1ExampleFrames.length → i ≠ 0 →
        chainToRoot c1ExampleFrames 0 (c1ExampleFrames.length + 1) i =
          matmul_4x4 (chainToRoot c1ExampleFrames 0 (c1ExampleFrames.length + 1)
            (normRef c1ExampleFrames 0 i).toNat)
            (c1ExampleFrames.getD i default).matrix)) :=
  ⟨⟨by decide, by decide, by decide, by decide⟩,
    c1_build_effective_matrices_chain c1ExampleFrames 0 id
      (by decide) (by decide) (by decide) (by decide)⟩

/-- Invariant of the `active` call-stack list: its entries form a parent
chain whose head's reference is the currently visited index. -/
inductive ActivePath (ds : List Frame) (root : Nat) : List Nat → Nat → Prop
  | nil (i : Nat) : ActivePath ds root [] i
  | cons (a : List Nat) (j i : Nat) :
      ActivePath ds root a j → (normRef ds root j).toNat = i → ActivePath ds root (j :: a) i

theorem iterRef_add (ds : List Frame) (root : Nat) (a b i : Nat) :
    iterRef ds root (a + b) i = iterRef ds root a (iterRef ds root b i) := by
  induction b generalizing i with
  | zero => rfl
  | succ b ih =>
    show iterRef ds root (a + b + 1) i = _
    conv_rhs => rw [iterRef]
    rw [iterRef, ih]

/-- Every member of an active path closes into the current index after
finitely many reference steps, all of which stay on the path. -/
theorem activePath_mem (ds : List Frame) (root : Nat) :
    ∀ a i, ActivePath ds root a i → ∀ j ∈ a,
      ∃ k, 0 < k ∧ iterRef ds root k j = i ∧ ∀ t, t < k → iterRef ds root t j ∈ a := by
  intro a i h
  induction h with
  | nil => simp
  | cons a j i hpath href ih =>
    intro x hx
    rcases List.mem_cons.mp hx with hx | hx
    · subst hx
      exact ⟨1, one_pos, by simp [iterRef, href], by
        intro t ht
        interval_cases t
        simp [iterRef]⟩
    · obtain ⟨k, hk0, hkj, hmem⟩ := ih x hx
      refine ⟨k + 1, by omega, ?_, ?_⟩
      · rw [show k + 1 = 1 + k from by omega, iterRef_add, hkj]
        simp [iterRef, href]
      · intro t ht
        by_cases htk : t < k
        · exact List.mem_cons_of_mem _ (hmem t htk)
        · have : t = k := by omega
          subst this
          rw [hkj]
          simp

/-- With valid references, `to_root` either succeeds or fails with a cycle
error whose index genuinely lies on a root-avoiding reference cycle; in
particular fuel `n + 1` never runs out and no invalid-reference error
occurs. -/
theorem to_root_valid_cases (ds : List Frame) (root : Nat)
    (hv : ValidRefs ds root) :
    ∀ fuel active i, i < ds.length → active.Nodup →
      (∀ a ∈ active, a < ds.length ∧ a ≠ root) →
      ActivePath ds root active i →
      ds.length < fuel + active.length →
      (∃ m, to_root ds root fuel active i = .ok m) ∨
      (∃ j k, to_root ds root fuel active i = .error (.cycleAt j) ∧ 0 < k ∧
        iterRef ds root k j = j ∧ ∀ t, t < k → iterRef ds root t j ≠ root) := by
  intro fuel
  induction fuel with
  | zero =>
    intro active i hi hnd hbnd _ hlen
    exfalso
    have hsub : active.toFinset ⊆ Finset.range ds.length := by
      intro a ha
      exact Finset.mem_range.mpr (hbnd a (List.mem_toFinset.mp ha)).1
    have hcard := Finset.card_le_card hsub
    rw [List.toFinset_card_of_nodup hnd, Finset.card_range] at hcard
    omega
  | succ fuel ih =>
    intro active i hi hnd hbnd hpath hlen
    by_cases hir : i = root
    · exact Or.inl ⟨identity_4x4, by simp [to_root, hir]⟩
    · by_cases hmem : i ∈ active
      · refine Or.inr ⟨i, ?_⟩
        obtain ⟨k, hk0, hki, hkmem⟩ := activePath_mem ds root active i hpath i hmem
        refine ⟨k, ?_, hk0, hki, ?_⟩
        · simp [to_root, hir, hmem]
        · intro t ht
          exact (hbnd _ (hkmem t ht)).2
      · have hvp := hv i hi hir
        have hrec := ih (i :: active) ((normRef ds root i).toNat) hvp.2
          (List.nodup_cons.mpr ⟨hmem, hnd⟩)
          (by
            intro a ha
            rcases List.mem_cons.mp ha with h | h
            · subst h; exact ⟨hi, hir⟩
            · exact hbnd a h)
          (ActivePath.cons active i _ hpath rfl)
          (by simp; omega)
        simp only [to_root, if_neg hir, if_neg hmem, if_pos hvp]
        rcases hrec with ⟨m, hm⟩ | ⟨j, k, he, hk0, hkj, hkroot⟩
        · exact Or.inl ⟨_, by rw [hm]⟩
        · exact Or.inr ⟨j, k, by rw [he], hk0, hkj, hkroot⟩

/-- If an index lies on a root-avoiding reference cycle, `to_root` can never
succeed on it, whatever the fuel and active set. -/
theorem to_root_on_cycle_not_ok (ds : List Frame) (root : Nat) :
    ∀ fuel active i k, 0 < k → iterRef ds root k i = i →
      (∀ t, t < k → iterRef ds root t i ≠ root) →
      ∀ m, to_root ds root fuel active i ≠ .ok m := by
  intro fuel
  induction fuel with
  | zero => intro active i k _ _ _ m; simp [to_root]
  | succ fuel ih =>
    intro active i k hk0 hki hkroot m
    have hir : i ≠ root := by
      have := hkroot 0 hk0
      simpa [iterRef] using this
    by_cases hmem : i ∈ active
    · simp [to_root, hir, hmem]
    · simp only [to_root, if_neg hir, if_neg hmem]
      by_cases hvp : 0 ≤ normRef ds root i ∧ (normRef ds root i).toNat < ds.length
      · rw [if_pos hvp]
        have hnext : iterRef ds root k ((normRef ds root i).toNat) = (normRef ds root i).toNat := by
          have h1 : iterRef ds root (k + 1) i = iterRef ds root 1 i := by
            rw [show k + 1 = 1 + k from by omega, iterRef_add, hki]
          have h2 : iterRef ds root (k + 1) i =
              iterRef ds root k (iterRef ds root 1 i) := by
            rw [show k + 1 = k + 1 from rfl, iterRef_add]
          rw [h1] at h2
          simpa [iterRef] using h2.symm
        have hnroot : ∀ t, t < k → iterRef ds root t ((normRef ds root i).toNat) ≠ root := by
          intro t ht
          have : iterRef ds root (t + 1) i = iterRef ds root t ((normRef ds root i).toNat) := by
            rw [show t + 1 = t + 1 from rfl, iterRef_add]
            simp [iterRef]
          rw [← this]
          by_cases htk : t + 1 < k
          · exact hkroot (t + 1) htk
          · have : t + 1 = k := by omega
            rw [this, hki]
            exact hir
        have := ih (i :: active) ((normRef ds root i).toNat) k hk0 hnext hnroot
        cases hsub : to_root ds root fuel (i :: active) ((normRef ds root i).toNat) with
        | error e => simp
        | ok mm => exact absurd hsub (this mm)
      · rw [if_neg hvp]
        simp

theorem runAll_error_of_exists (f : Nat → Except LoaderErr M4) (l : List Nat)
    (h : ∃ i ∈ l, ∀ m, f i ≠ .ok m) : ∃ e, runAll f l = .error e := by
  induction l with
  | nil => simp at h
  | cons i rest ih =>
    cases hf : f i with
    | error e => exact ⟨e, by simp [runAll, hf]⟩
    | ok m =>
      obtain ⟨j, hj, hne⟩ := h
      rcases List.mem_cons.mp hj with hj | hj
      · subst hj; exact absurd hf (hne m)
      · obtain ⟨e, he⟩ := ih ⟨j, hj, hne⟩
        exact ⟨e, by simp [runAll, hf, he]⟩

theorem runAll_error_source (f : Nat → Except LoaderErr M4) (l : List Nat) (e : LoaderErr)
    (h : runAll f l = .error e) : ∃ i ∈ l, f i = .error e := by
  induction l with
  | nil => simp [runAll] at h
  | cons i rest ih =>
    cases hf : f i with
    | error e2 =>
      rw [runAll, hf] at h
      cases h
      exact ⟨i, by simp, hf⟩
    | ok m =>
      rw [runAll, hf] at h
      cases hr : runAll f rest with
      | error e2 =>
        rw [hr] at h
        cases h
        obtain ⟨j, hj, hfj⟩ := ih hr
        exact ⟨j, by simp [hj], hfj⟩
      | ok ms => rw [hr] at h; cases h

/-- C4.  For every frame list with in-range parent references that contains a
root-avoiding reference cycle, `build_effective_matrices` neither loops
forever nor returns a result: with fuel `n + 1` it fails with a cycle error,
and the index named by the error itself lies on a root-avoiding reference
cycle. -/
theorem c4_build_effective_matrices_cycle_error
    (ds : List Frame) (root : Nat)
    (hroot : root < ds.length)
    (hv : ValidRefs ds root)
    (c k : Nat) (hc : c < ds.length) (hk0 : 0 < k)
    (hcyc : iterRef ds root k c = c)
    (hnr : ∀ t, t < k → iterRef ds root t c ≠ root) :
    ∃ j k2, build_effective_matrices ds root = .error (.cycleAt j) ∧ 0 < k2 ∧
      iterRef ds root k2 j = j ∧ ∀ t, t < k2 → iterRef ds root t j ≠ root := by
  have hn0 : ds.length ≠ 0 := by omega
  have hbuild : build_effective_matrices ds root =
      runAll (fun i => to_root ds root (ds.length + 1) [] i) (List.range ds.length) := by
    simp only [build_effective_matrices, if_neg hn0, if_neg (by omega : ¬ ds.length ≤ root)]
  obtain ⟨e, he⟩ := runAll_error_of_exists _ (List.range ds.length)
    ⟨c, List.mem_range.mpr hc, fun m => to_root_on_cycle_not_ok ds root _ [] c k hk0 hcyc hnr m⟩
  obtain ⟨i, hi, hfi⟩ := runAll_error_source _ _ _ he
  have hilt : i < ds.length := List.mem_range.mp hi
  have hcases := to_root_valid_cases ds root hv (ds.length + 1) [] i hilt
    List.nodup_nil (by simp) (ActivePath.nil i) (by simp)
  rcases hcases with ⟨m, hm⟩ | ⟨j, k2, hj, hk20, hkj, hkroot⟩
  · rw [hm] at hfi; cases hfi
  · rw [hj] at hfi
    cases hfi
    exact ⟨j, k2, by rw [hbuild, he], hk20, hkj, hkroot⟩

/-- Concrete frames for the C4 witness: root `0`, cycle `1 → 2 → 1`. -/
def c4ExampleFrames : List Frame :=
  [⟨1, none⟩, ⟨1, some 2⟩, ⟨1, some 1⟩]

theorem c4_build_effective_matrices_cycle_error_witness :
    (0 < c4ExampleFrames.length ∧ ValidRefs c4ExampleFrames 0 ∧
      1 < c4ExampleFrames.length ∧ 0 < 2 ∧ iterRef c4ExampleFrames 0 2 1 = 1 ∧
      (∀ t, t < 2 → iterRef c4ExampleFrames 0 t 1 ≠ 0)) ∧
    (∃ j k2, build_effective_matrices c4ExampleFrames 0 = .error (.cycleAt j) ∧ 0 < k2 ∧
      iterRef c4ExampleFrames 0 k2 j = j ∧ ∀ t, t < k2 → iterRef c4ExampleFrames 0 t j ≠ 0) :=
  ⟨⟨by decide, by decide, by decide, by decide, by decide, by decide⟩,
    c4_build_effective_matrices_cycle_error c4ExampleFrames 0 (by decide) (by decide)
      1 2 (by decide) (by decide) (by decide) (by decide)⟩

/-! ## `assignments.py`: the model matcher -/

/-- Python `abs` on floats. -/
def pyAbs (q : ℚ) : ℚ := if q < 0 then -q else q

theorem pyAbs_eq_abs (q : ℚ) : pyAbs q = |q| := by
  simp only [pyAbs, abs]
  rcases lt_or_le q 0 with h | h
  · rw [if_pos h, max_eq_right (by linarith)]
  · rw [if_neg (not_lt.mpr h), max_eq_left (by linarith)]

/-- A trajectory record: `name`, `start` (entry) and `end` (target) points. -/
structure Trajectory where
  name : String
  start : Vec3
  end_ : Vec3
deriving DecidableEq, Repr

/-- `assignments.trajectory_length_mm`: Euclidean distance `start`–`end`. -/
def trajectory_length_mm (t : Trajectory) : ℚ :=
  vnorm (vsub t.end_ t.start)

/-- An electrode model record as read by the matcher (`.get` defaults of the
source are folded into absent catalog entries via `modelGet`). -/
structure EModel where
  total_exploration_length_mm : ℚ
  contact_count : Int
deriving DecidableEq, Repr

/-- `assignments.electrode_length_mm`. -/
def electrode_length_mm (m : EModel) : ℚ := m.total_exploration_length_mm

/-- Association-list lookup by key (Python `dict` access; catalogs and
trajectory maps are keyed by distinct names). -/
def assocGet : List (String × β) → String → Option β
  | [], _ => none
  | (k, v) :: rest, key => if k = key then some v else assocGet rest key

/-- `models_by_id.get(model_id, {})` with per-field defaults `0.0` / `0`. -/
def modelGet (models : List (String × EModel)) (id : String) : EModel :=
  (assocGet models id).getD ⟨0, 0⟩

/-- The candidate id list: `model_ids` when given, else the sorted catalog
keys. -/
def candidatesOf (models : List (String × EModel)) (mids : Option (List String)) :
    List String :=
  match mids with
  | some l => l
  | none => pySorted pyStrLt (models.map Prod.fst)

/-- `|model_length − trajectory_length|` for a candidate id. -/
def modelDelta (traj_len : ℚ) (models : List (String × EModel)) (id : String) : ℚ :=
  pyAbs (electrode_length_mm (modelGet models id) - traj_len)

/-- The in-tolerance test of the matcher loop (`delta > tolerance + 1e-6`
skips the candidate). -/
def inTolerance (traj_len tol : ℚ) (models : List (String × EModel)) (id : String) : Bool :=
  decide (modelDelta traj_len models id ≤ tol + 1e-6)

/-- The four-clause replacement condition of the matcher loop, on raw data:
strictly smaller delta beyond the 1e-6 epsilon, or an epsilon-tie broken by
larger contact count, then smaller model length (again with epsilon), then
lexicographically smaller id. -/
def beatsData (delta best_delta model_len best_len : ℚ) (cc bc : Int)
    (mid bid : String) : Bool :=
  decide (delta < best_delta - 1e-6) ||
  (decide (pyAbs (delta - best_delta) ≤ 1e-6) && decide (cc > bc)) ||
  (decide (pyAbs (delta - best_delta) ≤ 1e-6) && decide (cc = bc) &&
    decide (model_len < best_len - 1e-6)) ||
  (decide (pyAbs (delta - best_delta) ≤ 1e-6) && decide (cc = bc) &&
    decide (pyAbs (model_len - best_len) ≤ 1e-6) && pyStrLt mid bid)

/-- The pairwise tie-break comparison between two candidate ids: `Beats a b`
holds when candidate `a` would replace incumbent `b` in the matcher loop. -/
def Beats (traj_len : ℚ) (models : List (String × EModel)) (a b : String) : Bool :=
  beatsData (modelDelta traj_len models a) (modelDelta traj_len models b)
    (electrode_length_mm (modelGet models a)) (electrode_length_mm (modelGet models b))
    (modelGet models a).contact_count (modelGet models b).contact_count a b

/-- One iteration of the `for model_id in candidates` loop of
`suggest_model_id_for_trajectory`; the state is
`(best_id, best_delta, best_len, best_contacts)` with `best_delta = none`
for the initial `None`. -/
def suggestStep (traj_len tol : ℚ) (models : List (String × EModel))
    (st : String × Option ℚ × ℚ × Int) (model_id : String) :
    String × Option ℚ × ℚ × Int :=
  let model := modelGet models model_id
  let model_len := electrode_length_mm model
  let delta := pyAbs (model_len - traj_len)
  if delta > tol + 1e-6 then st
  else
    let contact_count := model.contact_count
    let better :=
      match st.2.1 with
      | none => true
      | some best_delta => beatsData delta best_delta model_len st.2.2.1 contact_count st.2.2.2
          model_id st.1
    if better then (model_id, some delta, model_len, contact_count) else st

/-- `assignments.suggest_model_id_for_trajectory`. -/
def suggest_model_id_for_trajectory (traj : Trajectory)
    (models : List (String × EModel)) (mids : Option (List String)) (tol : ℚ) : String :=
  let traj_len := trajectory_length_mm traj
  let candidates := candidatesOf models mids
  (candidates.foldl (suggestStep traj_len tol models) ("", none, 0, -1)).1

/-- Invariant of the matcher loop over the already-seen candidates: either
nothing in tolerance has been seen and the state is still the initial one, or
the state holds exactly the data of an in-tolerance seen candidate that
pairwise beats every other in-tolerance seen candidate. -/
def SuggestInv (traj_len tol : ℚ) (models : List (String × EModel))
    (seen : List String) (st : String × Option ℚ × ℚ × Int) : Prop :=
  (st = ("", none, 0, -1) ∧ ∀ x ∈ seen, inTolerance traj_len tol models x = false) ∨
  (st.2.1 = some (modelDelta traj_len models st.1) ∧
    st.1 ∈ seen ∧ inTolerance traj_len tol models st.1 = true ∧
    st.2.2.1 = electrode_length_mm (modelGet models st.1) ∧
    st.2.2.2 = (modelGet models st.1).contact_count ∧
    ∀ x ∈ seen, inTolerance traj_len tol models x = true → x ≠ st.1 →
      Beats traj_len models st.1 x = true)

theorem suggestStep_preserves_inv (traj_len tol : ℚ)
    (models : List (String × EModel)) (cands : List String)
    (htrans : ∀ a b c, a ∈ cands → b ∈ cands → c ∈ cands →
      inTolerance traj_len tol models a = true → inTolerance traj_len tol models b = true →
      inTolerance traj_len tol models c = true →
      Beats traj_len models a b = true → Beats traj_len models b c = true →
      Beats traj_len models a c = true)
    (htot : ∀ a b, a ∈ cands → b ∈ cands →
      inTolerance traj_len tol models a = true → inTolerance traj_len tol models b = true →
      a ≠ b → Beats traj_len models a b = true ∨ Beats traj_len models b a = true)
    (seen : List String) (hseen : ∀ x ∈ seen, x ∈ cands)
    (c : String) (hc : c ∈ cands)
    (st : String × Option ℚ × ℚ × Int)
    (hinv : SuggestInv traj_len tol models seen st) :
    SuggestInv traj_len tol models (seen ++ [c]) (suggestStep traj_len tol models st c) := by
  by_cases htolc : inTolerance traj_len tol models c = true
  · have hskip : ¬ (pyAbs (electrode_length_mm (modelGet models c) - traj_len) > tol + 1e-6) := by
      simp only [inTolerance, modelDelta, decide_eq_true_eq] at htolc
      exact not_lt.mpr htolc
    rcases hinv with ⟨hst, hnone⟩ | ⟨hδ, hmem, htolb, hlen, hcnt, hbeats⟩
    · subst hst
      right
      simp only [suggestStep, if_neg hskip]
      refine ⟨rfl, by simp, htolc, rfl, rfl, ?_⟩
      intro x hx htolx hne
      rcases List.mem_append.mp hx with hx | hx
      · exact absurd htolx (by simp [hnone x hx])
      · simp at hx
        exact absurd hx hne
    · have hcond : suggestStep traj_len tol models st c =
          if Beats traj_len models c st.1 then
            (c, some (modelDelta traj_len models c),
              electrode_length_mm (modelGet models c), (modelGet models c).contact_count)
          else st := by
        simp only [suggestStep, if_neg hskip, hδ, hlen, hcnt, Beats, modelDelta]
      rw [hcond]
      by_cases hb : Beats traj_len models c st.1 = true
      · rw [if_pos hb]
        right
        refine ⟨rfl, by simp, htolc, rfl, rfl, ?_⟩
        intro x hx htolx hne
        rcases List.mem_append.mp hx with hx | hx
        · by_cases hxb : x = st.1
          · subst hxb; exact hb
          · exact htrans c st.1 x hc (hseen _ hmem) (hseen x hx) htolc htolb htolx hb
              (hbeats x hx htolx hxb)
        · simp at hx
          exact absurd hx hne
      · rw [if_neg hb]
        right
        refine ⟨hδ, List.mem_append_left _ hmem, htolb, hlen, hcnt, ?_⟩
        intro x hx htolx hne
        rcases List.mem_append.mp hx with hx | hx
        · exact hbeats x hx htolx hne
        · simp at hx
          subst hx
          rcases htot st.1 x (hseen _ hmem) hc htolb htolx (fun h => hne h.symm) with h | h
          · exact h
          · exact absurd h (by simpa using hb)
  · have hskip : pyAbs (electrode_length_mm (modelGet models c) - traj_len) > tol + 1e-6 := by
      simp only [inTolerance, modelDelta, decide_eq_true_eq] at htolc
      exact lt_of_not_le htolc
    have hstep : suggestStep traj_len tol models st c = st := by
      simp only [suggestStep, if_pos hskip]
    rw [hstep]
    rcases hinv with ⟨hst, hnone⟩ | ⟨hδ, hmem, htolb, hlen, hcnt, hbeats⟩
    · left
      refine ⟨hst, ?_⟩
      intro x hx
      rcases List.mem_append.mp hx with hx | hx
      · exact hnone x hx
      · simp at hx
        subst hx
        simpa using htolc
    · right
      refine ⟨hδ, List.mem_append_left _ hmem, htolb, hlen, hcnt, ?_⟩
      intro x hx htolx hne
      rcases List.mem_append.mp hx with hx | hx
      · exact hbeats x hx htolx hne
      · simp at hx
        subst hx
        exact absurd htolx (by simpa using htolc)

theorem suggest_fold_inv (traj_len tol : ℚ) (models : List (String × EModel))
    (cands : List String)
    (htrans : ∀ a b c, a ∈ cands → b ∈ cands → c ∈ cands →
      inTolerance traj_len tol models a = true → inTolerance traj_len tol models b = true →
      inTolerance traj_len tol models c = true →
      Beats traj_len models a b = true → Beats traj_len models b c = true →
      Beats traj_len models a c = true)
    (htot : ∀ a b, a ∈ cands → b ∈ cands →
      inTolerance traj_len tol models a = true → inTolerance traj_len tol models b = true →
      a ≠ b → Beats traj_len models a b = true ∨ Beats traj_len models b a = true) :
    ∀ rest seen st, (∀ x ∈ rest, x ∈ cands) → (∀ x ∈ seen, x ∈ cands) →
      SuggestInv traj_len tol models seen st →
      SuggestInv traj_len tol models (seen ++ rest)
        (rest.foldl (suggestStep traj_len tol models) st) := by
  intro rest
  induction rest with
  | nil => intro seen st _ _ h; simpa using h
  | cons c cs ih =>
    intro seen st hrest hseen hinv
    have step := suggestStep_preserves_inv traj_len tol models cands htrans htot seen hseen
      c (hrest c (by simp)) st hinv
    have := ih (seen ++ [c]) (suggestStep traj_len tol models st c)
      (fun x hx => hrest x (by simp [hx]))
      (by
        intro x hx
        rcases List.mem_append.mp hx with hx | hx
        · exact hseen x hx
        · simp at hx; subst hx; exact hrest x (by simp))
      step
    simpa using this

/-- A trajectory of length exactly 41 mm, shared by the C3 instances. -/
def c3Traj41 : Trajectory := ⟨"T", ⟨0, 0, 0⟩, ⟨0, 0, 41⟩⟩

theorem c3Traj41_len : trajectory_length_mm c3Traj41 = 41 := by
  apply vnorm_eq_of_sq _ 41 (by norm_num)
  simp only [c3Traj41, vnormSq, vsub]
  norm_num

/-- Catalog exhibiting epsilon-creep: deltas 0, 0.9e-6, 1.8e-6 with rising
contact counts. -/
def c3CexModels : List (String × EModel) :=
  [("A", ⟨41, 5⟩), ("B", ⟨41 + 9/10000000, 6⟩), ("C", ⟨41 + 18/10000000, 7⟩)]

/-- C3 counterexample.  The matcher returns `"C"` although the in-tolerance
candidate `"A"` has an absolute length delta smaller than `"C"`'s by more
than the 1e-6 epsilon (so the claimed strict priority — smallest delta
first, ties only within 1e-6 — would select `"A"`, and indeed
`Beats "A" "C"` holds by the first rule): the epsilon-tie relation is not
transitive, and the sequential loop lets the incumbent delta creep upward
one epsilon at a time. -/
theorem c3_strict_priority_counterexample :
    suggest_model_id_for_trajectory c3Traj41 c3CexModels (some ["A", "B", "C"]) 5 = "C" ∧
    inTolerance (trajectory_length_mm c3Traj41) 5 c3CexModels "A" = true ∧
    modelDelta (trajectory_length_mm c3Traj41) c3CexModels "A" + 1e-6 <
      modelDelta (trajectory_length_mm c3Traj41) c3CexModels "C" ∧
    Beats (trajectory_length_mm c3Traj41) c3CexModels "A" "C" = true ∧
    "A" ≠ "C" := by
  have hA : modelGet c3CexModels "A" = ⟨41, 5⟩ := rfl
  have hB : modelGet c3CexModels "B" = ⟨41 + 9/10000000, 6⟩ := rfl
  have hC : modelGet c3CexModels "C" = ⟨41 + 18/10000000, 7⟩ := rfl
  refine ⟨?_, ?_, ?_, ?_, by decide⟩
  · simp only [suggest_model_id_for_trajectory, candidatesOf, c3Traj41_len, List.foldl]
    norm_num [suggestStep, beatsData, modelDelta, electrode_length_mm, hA, hB, hC, pyAbs]
  · rw [c3Traj41_len]
    norm_num [inTolerance, modelDelta, electrode_length_mm, hA, pyAbs]
  · rw [c3Traj41_len]
    norm_num [modelDelta, electrode_length_mm, hA, hC, pyAbs]
  · rw [c3Traj41_len]
    norm_num [Beats, beatsData, modelDelta, electrode_length_mm, hA, hC, pyAbs]

/-- C3 amended.  Whenever the pairwise epsilon tie-break comparison `Beats`
is transitive and total on the in-tolerance candidates (which holds e.g. when
any two candidate deltas are either genuinely tied or separated by more than
the 1e-6 epsilon), the matcher selects the unique in-tolerance candidate that
beats every other in-tolerance candidate under the strict priority order
(smallest delta, then larger contact count, then smaller model length, then
lexicographically smaller id, with 1e-6 epsilon ties), and returns the empty
sentinel when nothing is in tolerance. -/
theorem c3_suggest_model_tiebreak_amended (traj : Trajectory)
    (models : List (String × EModel)) (mids : Option (List String)) (tol : ℚ)
    (htrans : ∀ a b c, a ∈ candidatesOf models mids → b ∈ candidatesOf models mids →
      c ∈ candidatesOf models mids →
      inTolerance (trajectory_length_mm traj) tol models a = true →
      inTolerance (trajectory_length_mm traj) tol models b = true →
      inTolerance (trajectory_length_mm traj) tol models c = true →
      Beats (trajectory_length_mm traj) models a b = true →
      Beats (trajectory_length_mm traj) models b c = true →
      Beats (trajectory_length_mm traj) models a c = true)
    (htot : ∀ a b, a ∈ candidatesOf models mids → b ∈ candidatesOf models mids →
      inTolerance (trajectory_length_mm traj) tol models a = true →
      inTolerance (trajectory_length_mm traj) tol models b = true →
      a ≠ b → Beats (trajectory_length_mm traj) models a b = true ∨
        Beats (trajectory_length_mm traj) models b a = true) :
    ((∀ c ∈ candidatesOf models mids,
        inTolerance (trajectory_length_mm traj) tol models c = false) →
      suggest_model_id_for_trajectory traj models mids tol = "") ∧
    (∀ c ∈ candidatesOf models mids,
      inTolerance (trajectory_length_mm traj) tol models c = true →
      suggest_model_id_for_trajectory traj models mids tol ∈ candidatesOf models mids ∧
      inTolerance (trajectory_length_mm traj) tol models
        (suggest_model_id_for_trajectory traj models mids tol) = true ∧
      (c ≠ suggest_model_id_for_trajectory traj models mids tol →
        Beats (trajectory_length_mm traj) models
          (suggest_model_id_for_trajectory traj models mids tol) c = true)) := by
  have hfold := suggest_fold_inv (trajectory_length_mm traj) tol models
    (candidatesOf models mids) htrans htot (candidatesOf models mids) [] ("", none, 0, -1)
    (fun x hx => hx) (by simp) (Or.inl ⟨rfl, by simp⟩)
  rw [List.nil_append] at hfold
  have hr : suggest_model_id_for_trajectory traj models mids tol =
      ((candidatesOf models mids).foldl
        (suggestStep (trajectory_length_mm traj) tol models) ("", none, 0, -1)).1 := rfl
  rcases hfold with ⟨hst, hnone⟩ | ⟨_, hmem, htolb, _, _, hbeats⟩
  · constructor
    · intro _
      rw [hr, hst]
    · intro c hc htolc
      exact absurd (hnone c hc) (by simp [htolc])
  · constructor
    · intro hallout
      exact absurd (hallout _ hmem) (by simp [htolb])
    · intro c hc htolc
      rw [hr]
      exact ⟨hmem, htolb, fun hne => hbeats c hc htolc hne⟩

/-- The specification's own model-matcher instance: models A/B/C with
lengths 40/42/42 and contact counts 10/8/12. -/
def c3SpecModels : List (String × EModel) :=
  [("A", ⟨40, 10⟩), ("B", ⟨42, 8⟩), ("C", ⟨42, 12⟩)]

theorem c3_suggest_model_tiebreak_amended_witness :
    ((∀ a b c, a ∈ candidatesOf c3SpecModels (some ["A", "B", "C"]) →
      b ∈ candidatesOf c3SpecModels (some ["A", "B", "C"]) →
      c ∈ candidatesOf c3SpecModels (some ["A", "B", "C"]) →
      inTolerance (trajectory_length_mm c3Traj41) 5 c3SpecModels a = true →
      inTolerance (trajectory_length_mm c3Traj41) 5 c3SpecModels b = true →
      inTolerance (trajectory_length_mm c3Traj41) 5 c3SpecModels c = true →
      Beats (trajectory_length_mm c3Traj41) c3SpecModels a b = true →
      Beats (trajectory_length_mm c3Traj41) c3SpecModels b c = true →
      Beats (trajectory_length_mm c3Traj41) c3SpecModels a c = true) ∧
    (∀ a b, a ∈ candidatesOf c3SpecModels (some ["A", "B", "C"]) →
      b ∈ candidatesOf c3SpecModels (some ["A", "B", "C"]) →
      inTolerance (trajectory_length_mm c3Traj41) 5 c3SpecModels a = true →
      inTolerance (trajectory_length_mm c3Traj41) 5 c3SpecModels b = true →
      a ≠ b → Beats (trajectory_length_mm c3Traj41) c3SpecModels a b = true ∨
        Beats (trajectory_length_mm c3Traj41) c3SpecModels b a = true)) ∧
    (∀ c ∈ candidatesOf c3SpecModels (some ["A", "B", "C"]),
      inTolerance (trajectory_length_mm c3Traj41) 5 c3SpecModels c = true →
      suggest_model_id_for_trajectory c3Traj41 c3SpecModels (some ["A", "B", "C"]) 5 ∈
        candidatesOf c3SpecModels (some ["A", "B", "C"]) ∧
      inTolerance (trajectory_length_mm c3Traj41) 5 c3SpecModels
        (suggest_model_id_for_trajectory c3Traj41 c3SpecModels (some ["A", "B", "C"]) 5) = true ∧
      (c ≠ suggest_model_id_for_trajectory c3Traj41 c3SpecModels (some ["A", "B", "C"]) 5 →
        Beats (trajectory_length_mm c3Traj41) c3SpecModels
          (suggest_model_id_for_trajectory c3Traj41 c3SpecModels (some ["A", "B", "C"]) 5) c =
          true)) ∧
    suggest_model_id_for_trajectory c3Traj41 c3SpecModels (some ["A", "B", "C"]) 5 = "C" := by
  have hA : modelGet c3SpecModels "A" = ⟨40, 10⟩ := rfl
  have hB : modelGet c3SpecModels "B" = ⟨42, 8⟩ := rfl
  have hC : modelGet c3SpecModels "C" = ⟨42, 12⟩ := rfl
  have hAB : Beats (trajectory_length_mm c3Traj41) c3SpecModels "A" "B" = true := by
    rw [c3Traj41_len]
    norm_num [Beats, beatsData, modelDelta, electrode_length_mm, hA, hB, pyAbs]
  have hCA : Beats (trajectory_length_mm c3Traj41) c3SpecModels "C" "A" = true := by
    rw [c3Traj41_len]
    norm_num [Beats, beatsData, modelDelta, electrode_length_mm, hA, hC, pyAbs]
  have hCB : Beats (trajectory_length_mm c3Traj41) c3SpecModels "C" "B" = true := by
    rw [c3Traj41_len]
    norm_num [Beats, beatsData, modelDelta, electrode_length_mm, hB, hC, pyAbs]
  have hBA : Beats (trajectory_length_mm c3Traj41) c3SpecModels "B" "A" = false := by
    rw [c3Traj41_len]
    norm_num [Beats, beatsData, modelDelta, electrode_length_mm, hA, hB, pyAbs, pyStrLt]
  have hAC : Beats (trajectory_length_mm c3Traj41) c3SpecModels "A" "C" = false := by
    rw [c3Traj41_len]
    norm_num [Beats, beatsData, modelDelta, electrode_length_mm, hA, hC, pyAbs, pyStrLt]
  have hBC : Beats (trajectory_length_mm c3Traj41) c3SpecModels "B" "C" = false := by
    rw [c3Traj41_len]
    norm_num [Beats, beatsData, modelDelta, electrode_length_mm, hB, hC, pyAbs, pyStrLt]
  have hAA : Beats (trajectory_length_mm c3Traj41) c3SpecModels "A" "A" = false := by
    rw [c3Traj41_len]
    norm_num [Beats, beatsData, modelDelta, electrode_length_mm, hA, pyAbs, pyStrLt]
  have hBB : Beats (trajectory_length_mm c3Traj41) c3SpecModels "B" "B" = false := by
    rw [c3Traj41_len]
    norm_num [Beats, beatsData, modelDelta, electrode_length_mm, hB, pyAbs, pyStrLt]
  have hCC : Beats (trajectory_length_mm c3Traj41) c3SpecModels "C" "C" = false := by
    rw [c3Traj41_len]
    norm_num [Beats, beatsData, modelDelta, electrode_length_mm, hC, pyAbs, pyStrLt]
  have hmem : ∀ x, x ∈ candidatesOf c3SpecModels (some ["A", "B", "C"]) →
      x = "A" ∨ x = "B" ∨ x = "C" := by
    intro x hx
    simpa [candidatesOf] using hx
  have htrans : ∀ a b c, a ∈ candidatesOf c3SpecModels (some ["A", "B", "C"]) →
      b ∈ candidatesOf c3SpecModels (some ["A", "B", "C"]) →
      c ∈ candidatesOf c3SpecModels (some ["A", "B", "C"]) →
      inTolerance (trajectory_length_mm c3Traj41) 5 c3SpecModels a = true →
      inTolerance (trajectory_length_mm c3Traj41) 5 c3SpecModels b = true →
      inTolerance (trajectory_length_mm c3Traj41) 5 c3SpecModels c = true →
      Beats (trajectory_length_mm c3Traj41) c3SpecModels a b = true →
      Beats (trajectory_length_mm c3Traj41) c3SpecModels b c = true →
      Beats (trajectory_length_mm c3Traj41) c3SpecModels a c = true := by
    intro a b c ha hb hc _ _ _ h1 h2
    rcases hmem a ha with rfl | rfl | rfl <;> rcases hmem b hb with rfl | rfl | rfl <;>
      rcases hmem c hc with rfl | rfl | rfl <;>
      simp_all [hAA, hBB, hCC, hAB, hBA, hAC, hCA, hBC, hCB]
  have htot : ∀ a b, a ∈ candidatesOf c3SpecModels (some ["A", "B", "C"]) →
      b ∈ candidatesOf c3SpecModels (some ["A", "B", "C"]) →
      inTolerance (trajectory_length_mm c3Traj41) 5 c3SpecModels a = true →
      inTolerance (trajectory_length_mm c3Traj41) 5 c3SpecModels b = true →
      a ≠ b → Beats (trajectory_length_mm c3Traj41) c3SpecModels a b = true ∨
        Beats (trajectory_length_mm c3Traj41) c3SpecModels b a = true := by
    intro a b ha hb _ _ hne
    rcases hmem a ha with rfl | rfl | rfl <;> rcases hmem b hb with rfl | rfl | rfl <;>
      simp_all [hAB, hBA, hAC, hCA, hBC, hCB]
  refine ⟨⟨htrans, htot⟩,
    (c3_suggest_model_tiebreak_amended c3Traj41 c3SpecModels (some ["A", "B", "C"]) 5
      htrans htot).2, ?_⟩
  simp only [suggest_model_id_for_trajectory, candidatesOf, c3Traj41_len, List.foldl]
  norm_num [suggestStep, beatsData, modelDelta, electrode_length_mm, hA, hB, hC, pyAbs, pyStrLt]

/-! ## `contacts.py`: the contact placement engine -/

/-- An assignment row (`trajectory`, `model_id`, `tip_at` are optional in the
JSON; `none` models a missing or null key). -/
structure EAssignment where
  trajectory : Option String
  model_id : Option String
  tip_at : Option String
  tip_shift_mm : ℚ
  xyz_offset_mm : List ℚ
deriving DecidableEq, Repr

/-- An electrode model as used by the placement engine. -/
structure ContactModel where
  id : String
  contact_center_offsets_from_tip_mm : List ℚ
deriving DecidableEq, Repr

/-- A generated contact record. -/
structure Contact where
  trajectory : String
  model_id : String
  index : Nat
  label : String
  position_lps : Vec3
  tip_at : String
deriving DecidableEq, Repr

/-- `(tip_at or "target")`: Python's falsy-or on the tip anchor string.
The subsequent `.lower()` case-normalization is not modelled; tip anchor
strings are taken as already lower-case. -/
def tipAtResolved (tip_at : String) : String :=
  if tip_at = "" then "target" else tip_at

/-- `contacts._tip_and_axis`: resolve tip point and forward axis from
entry/target and the tip anchor choice. -/
def _tip_and_axis (traj : Trajectory) (tip_at : String) : Except String (Vec3 × Vec3) :=
  let entry := traj.start
  let target := traj.end_
  let tip_at_norm := tipAtResolved tip_at
  if tip_at_norm = "target" then
    match vunit? (vsub entry target) with
    | none => .error "Zero-length trajectory vector"
    | some axis => .ok (target, axis)
  else if tip_at_norm = "entry" then
    match vunit? (vsub target entry) with
    | none => .error "Zero-length trajectory vector"
    | some axis => .ok (entry, axis)
  else .error ("Invalid tip_at '" ++ tip_at ++ "'. Expected 'entry' or 'target'")

/-- `contacts.generate_contacts_for_assignment`. -/
def generate_contacts_for_assignment (traj : Trajectory) (model : ContactModel)
    (a : EAssignment) : Except String (List Contact) :=
  let tip_at := a.tip_at.getD "target"
  let tip_shift := a.tip_shift_mm
  let xyz_offset := a.xyz_offset_mm
  if xyz_offset.length ≠ 3 then .error "xyz_offset_mm must have 3 values"
  else
    match _tip_and_axis traj tip_at with
    | .error e => .error e
    | .ok ta =>
      let tip2 := vadd (vadd ta.1 (vsmul tip_shift ta.2))
        ⟨xyz_offset.getD 0 0, xyz_offset.getD 1 0, xyz_offset.getD 2 0⟩
      .ok ((enumerateFrom 1 model.contact_center_offsets_from_tip_mm).map
        (fun p =>
          { trajectory := traj.name, model_id := model.id, index := p.1,
            label := traj.name ++ toString p.1,
            position_lps := vadd tip2 (vsmul p.2 ta.2), tip_at := tip_at }))

/-- Python falsiness of the optional `model_id` string (`if not model_id`). -/
def pyFalsyStr (s : Option String) : Bool :=
  match s with
  | none => true
  | some x => x = ""

/-- `f"{x}"` for an optional string (`None` prints as `"None"`). -/
def pyStrOfOpt (s : Option String) : String := s.getD "None"

/-- `traj_map = {t["name"]: t}` lookup (trajectory names assumed distinct). -/
def trajGetOpt (ts : List Trajectory) (name : Option String) : Option Trajectory :=
  match name with
  | none => none
  | some n => assocGet (ts.map (fun t => (t.name, t))) n

/-- The `for a in assignments` loop of `generate_contacts`, threading the
accumulated contacts and missing-reference messages; the aggregated error is
raised only after the whole batch is examined, while an exception from
`generate_contacts_for_assignment` aborts immediately. -/
def gcLoop (ts : List Trajectory) (models : List (String × ContactModel)) :
    List EAssignment → List Contact → List String → Except String (List Contact)
  | [], out, missing =>
    if missing.isEmpty then .ok out
    else .error ("Missing references in assignments: " ++ String.intercalate ", " missing)
  | a :: rest, out, missing =>
    if pyFalsyStr a.model_id then gcLoop ts models rest out missing
    else
      match trajGetOpt ts a.trajectory with
      | none =>
        gcLoop ts models rest out
          (missing ++ ["trajectory '" ++ pyStrOfOpt a.trajectory ++ "'"])
      | some traj =>
        match assocGet models (a.model_id.getD "") with
        | none =>
          gcLoop ts models rest out (missing ++ ["model '" ++ a.model_id.getD "" ++ "'"])
        | some model =>
          match generate_contacts_for_assignment traj model a with
          | .error e => .error e
          | .ok cs => gcLoop ts models rest (out ++ cs) missing

/-- `contacts.generate_contacts`. -/
def generate_contacts (ts : List Trajectory) (models : List (String × ContactModel))
    (assignments : List EAssignment) : Except String (List Contact) :=
  gcLoop ts models assignments [] []

/-- The missing-reference messages collected by the `generate_contacts` loop,
in batch order. -/
def missingRefs (ts : List Trajectory) (models : List (String × ContactModel)) :
    List EAssignment → List String
  | [] => []
  | a :: rest =>
    if pyFalsyStr a.model_id then missingRefs ts models rest
    else
      match trajGetOpt ts a.trajectory with
      | none =>
        ("trajectory '" ++ pyStrOfOpt a.trajectory ++ "'") :: missingRefs ts models rest
      | some _ =>
        match assocGet models (a.model_id.getD "") with
        | none => ("model '" ++ a.model_id.getD "" ++ "'") :: missingRefs ts models rest
        | some _ => missingRefs ts models rest

/-- C2.  For a trajectory whose entry–target distance is (exactly) `r > 1e-9`
and a 3-component `xyz_offset_mm`: with `tip_at = "target"` the tip is the
target and the forward axis is the unit vector from target toward entry; with
`tip_at = "entry"` the tip is the entry and the axis points entry toward
target.  `tip_shift_mm` is applied along the axis, then `xyz_offset_mm` is
added, and contact `i` (1-based) sits at `tip + axis*offset_i` with label
`trajectory_name ++ i`. -/
theorem c2_generate_contacts_for_assignment_placement
    (traj : Trajectory) (model : ContactModel) (a : EAssignment) (r : ℚ)
    (hr : 1e-9 < r)
    (hsq : vnormSq (vsub traj.start traj.end_) = r ^ 2)
    (hxyz : a.xyz_offset_mm.length = 3) :
    (tipAtResolved (a.tip_at.getD "target") = "target" →
      ∃ l, generate_contacts_for_assignment traj model a = .ok l ∧
        l.length = model.contact_center_offsets_from_tip_mm.length ∧
        ∀ i, i < model.contact_center_offsets_from_tip_mm.length →
          l[i]? = some
            { trajectory := traj.name, model_id := model.id, index := i + 1,
              label := traj.name ++ toString (i + 1),
              position_lps :=
                vadd
                  (vadd (vadd traj.end_
                    (vsmul a.tip_shift_mm
                      ⟨(traj.start.x - traj.end_.x) / r, (traj.start.y - traj.end_.y) / r,
                        (traj.start.z - traj.end_.z) / r⟩))
                    ⟨a.xyz_offset_mm.getD 0 0, a.xyz_offset_mm.getD 1 0, a.xyz_offset_mm.getD 2 0⟩)
                  (vsmul (model.contact_center_offsets_from_tip_mm.getD i 0)
                    ⟨(traj.start.x - traj.end_.x) / r, (traj.start.y - traj.end_.y) / r,
                      (traj.start.z - traj.end_.z) / r⟩),
              tip_at := a.tip_at.getD "target" }) ∧
    (tipAtResolved (a.tip_at.getD "target") = "entry" →
      ∃ l, generate_contacts_for_assignment traj model a = .ok l ∧
        l.length = model.contact_center_offsets_from_tip_mm.length ∧
        ∀ i, i < model.contact_center_offsets_from_tip_mm.length →
          l[i]? = some
            { trajectory := traj.name, model_id := model.id, index := i + 1,
              label := traj.name ++ toString (i + 1),
              position_lps :=
                vadd
                  (vadd (vadd traj.start
                    (vsmul a.tip_shift_mm
                      ⟨(traj.end_.x - traj.start.x) / r, (traj.end_.y - traj.start.y) / r,
                        (traj.end_.z - traj.start.z) / r⟩))
                    ⟨a.xyz_offset_mm.getD 0 0, a.xyz_offset_mm.getD 1 0, a.xyz_offset_mm.getD 2 0⟩)
                  (vsmul (model.contact_center_offsets_from_tip_mm.getD i 0)
                    ⟨(traj.end_.x - traj.start.x) / r, (traj.end_.y - traj.start.y) / r,
                      (traj.end_.z - traj.start.z) / r⟩),
              tip_at := a.tip_at.getD "target" }) := by
  have hr0 : (0 : ℚ) ≤ r := by linarith [show (0:ℚ) < 1e-9 by norm_num]
  have hnormT : vnorm (vsub traj.start traj.end_) = r := vnorm_eq_of_sq _ r hr0 hsq
  have hnormE : vnorm (vsub traj.end_ traj.start) = r := by
    rw [vnorm, vnormSq_vsub_comm, ← vnorm, hnormT]
  have hno : ¬ (r ≤ 1e-9) := not_le.mpr hr
  have hgen : ∀ tip axis,
      _tip_and_axis traj (a.tip_at.getD "target") = .ok (tip, axis) →
      ∃ l, generate_contacts_for_assignment traj model a = .ok l ∧
        l.length = model.contact_center_offsets_from_tip_mm.length ∧
        ∀ i, i < model.contact_center_offsets_from_tip_mm.length →
          l[i]? = some
            { trajectory := traj.name, model_id := model.id, index := i + 1,
              label := traj.name ++ toString (i + 1),
              position_lps :=
                vadd
                  (vadd (vadd tip (vsmul a.tip_shift_mm axis))
                    ⟨a.xyz_offset_mm.getD 0 0, a.xyz_offset_mm.getD 1 0, a.xyz_offset_mm.getD 2 0⟩)
                  (vsmul (model.contact_center_offsets_from_tip_mm.getD i 0) axis),
              tip_at := a.tip_at.getD "target" } := by
    intro tip axis hta
    refine ⟨(enumerateFrom 1 model.contact_center_offsets_from_tip_mm).map
      (fun p => Contact.mk traj.name model.id p.1 (traj.name ++ toString p.1)
        (vadd (vadd (vadd tip (vsmul a.tip_shift_mm axis))
          ⟨a.xyz_offset_mm.getD 0 0, a.xyz_offset_mm.getD 1 0, a.xyz_offset_mm.getD 2 0⟩)
          (vsmul p.2 axis)) (a.tip_at.getD "target")), ?_, ?_, ?_⟩
    · simp only [generate_contacts_for_assignment, hta]
      rw [if_neg (by simp [hxyz])]
    · simp [enumerateFrom_length]
    · intro i hi
      rw [List.getElem?_map, enumerateFrom_getElem? 1 _ i hi]
      have hoff : model.contact_center_offsets_from_tip_mm[i]? =
          some (model.contact_center_offsets_from_tip_mm.getD i 0) := by
        rw [List.getD_eq_getElem?_getD, List.getElem?_eq_getElem hi]
        simp
      rw [hoff]
      simp [Nat.add_comm 1 i]
  constructor
  · intro ht
    have hta : _tip_and_axis traj (a.tip_at.getD "target") =
        .ok (traj.end_,
          ⟨(traj.start.x - traj.end_.x) / r, (traj.start.y - traj.end_.y) / r,
            (traj.start.z - traj.end_.z) / r⟩) := by
      simp only [_tip_and_axis, ht, vunit?, hnormT, if_neg hno]
      simp [vsub]
    exact hgen _ _ hta
  · intro ht
    have hta : _tip_and_axis traj (a.tip_at.getD "target") =
        .ok (traj.start,
          ⟨(traj.end_.x - traj.start.x) / r, (traj.end_.y - traj.start.y) / r,
            (traj.end_.z - traj.start.z) / r⟩) := by
      simp only [_tip_and_axis, ht, vunit?, hnormE, if_neg hno]
      simp [vsub]
    exact hgen _ _ hta

/-- The specification's contact-placement instance: entry `(0,0,0)`, target
`(0,0,50)`, `tip_at="target"`, offsets `[2,6,10]`. -/
def c2ExampleTraj : Trajectory := ⟨"T", ⟨0, 0, 0⟩, ⟨0, 0, 50⟩⟩

def c2ExampleModel : ContactModel := ⟨"M", [2, 6, 10]⟩

def c2ExampleAsg : EAssignment := ⟨some "T", some "M", some "target", 0, [0, 0, 0]⟩

theorem c2_generate_contacts_for_assignment_placement_witness :
    ((1e-9 : ℚ) < 50 ∧ vnormSq (vsub c2ExampleTraj.start c2ExampleTraj.end_) = 50 ^ 2 ∧
      c2ExampleAsg.xyz_offset_mm.length = 3 ∧
      tipAtResolved (c2ExampleAsg.tip_at.getD "target") = "target") ∧
    (∃ l, generate_contacts_for_assignment c2ExampleTraj c2ExampleModel c2ExampleAsg = .ok l ∧
      l.length = 3 ∧
      l[0]? = some ⟨"T", "M", 1, "T1", ⟨0, 0, 48⟩, "target"⟩ ∧
      l[2]? = some ⟨"T", "M", 3, "T3", ⟨0, 0, 40⟩, "target"⟩) := by
  have h1 : (1e-9 : ℚ) < 50 := by norm_num
  have h2 : vnormSq (vsub c2ExampleTraj.start c2ExampleTraj.end_) = 50 ^ 2 := by
    simp only [c2ExampleTraj, vnormSq, vsub]
    norm_num
  have h3 : c2ExampleAsg.xyz_offset_mm.length = 3 := rfl
  have h4 : tipAtResolved (c2ExampleAsg.tip_at.getD "target") = "target" := rfl
  obtain ⟨l, hok, hlen, hget⟩ :=
    (c2_generate_contacts_for_assignment_placement c2ExampleTraj c2ExampleModel c2ExampleAsg 50
      h1 h2 h3).1 h4
  refine ⟨⟨h1, h2, h3, h4⟩, l, hok, by rw [hlen]; rfl, ?_, ?_⟩
  · have h0 := hget 0 (by norm_num [c2ExampleModel])
    rw [h0]
    norm_num [c2ExampleTraj, c2ExampleModel, c2ExampleAsg, vadd, vsmul]
    rfl
  · have h0 := hget 2 (by norm_num [c2ExampleModel])
    rw [h0]
    norm_num [c2ExampleTraj, c2ExampleModel, c2ExampleAsg, vadd, vsmul]
    rfl

theorem gcLoop_skip_falsy (ts : List Trajectory) (models : List (String × ContactModel))
    (a : EAssignment) (hfa : pyFalsyStr a.model_id = true) :
    ∀ pre post out missing,
      gcLoop ts models (pre ++ a :: post) out missing =
        gcLoop ts models (pre ++ post) out missing := by
  intro pre
  induction pre with
  | nil =>
    intro post out missing
    simp only [List.nil_append, gcLoop, if_pos hfa]
  | cons b pre ih =>
    intro post out missing
    by_cases hfb : pyFalsyStr b.model_id = true
    · simp only [List.cons_append, gcLoop, if_pos hfb]
      exact ih post out missing
    · simp only [List.cons_append, gcLoop, if_neg hfb]
      cases htb : trajGetOpt ts b.trajectory with
      | none => exact ih post out _
      | some traj =>
        cases hmb : assocGet models (b.model_id.getD "") with
        | none => exact ih post out _
        | some model =>
          cases hgb : generate_contacts_for_assignment traj model b with
          | error e => simp only [hgb]
          | ok cs =>
            simp only [hgb]
            exact ih post _ missing

theorem gcLoop_missing_error (ts : List Trajectory) (models : List (String × ContactModel)) :
    ∀ asgs out missing,
      (∀ a ∈ asgs, pyFalsyStr a.model_id = false →
        ∀ t, trajGetOpt ts a.trajectory = some t →
        ∀ m, assocGet models (a.model_id.getD "") = some m →
        ∃ cs, generate_contacts_for_assignment t m a = .ok cs) →
      missing ++ missingRefs ts models asgs ≠ [] →
      gcLoop ts models asgs out missing =
        .error ("Missing references in assignments: " ++
          String.intercalate ", " (missing ++ missingRefs ts models asgs)) := by
  intro asgs
  induction asgs with
  | nil =>
    intro out missing _ hne
    simp only [missingRefs, List.append_nil] at hne ⊢
    simp only [gcLoop]
    rw [if_neg (by simpa using hne)]
  | cons a rest ih =>
    intro out missing hgen hne
    by_cases hfa : pyFalsyStr a.model_id = true
    · have hmr : missingRefs ts models (a :: rest) = missingRefs ts models rest := by
        simp only [missingRefs, if_pos hfa]
      rw [hmr] at hne ⊢
      simp only [gcLoop, if_pos hfa]
      exact ih out missing (fun b hb => hgen b (by simp [hb])) hne
    · cases hta : trajGetOpt ts a.trajectory with
      | none =>
        have hmr : missingRefs ts models (a :: rest) =
            ("trajectory '" ++ pyStrOfOpt a.trajectory ++ "'") :: missingRefs ts models rest := by
          simp only [missingRefs, if_neg hfa, hta]
        rw [hmr] at hne ⊢
        rw [List.append_cons] at hne ⊢
        simp only [gcLoop, if_neg hfa, hta]
        exact ih out (missing ++ ["trajectory '" ++ pyStrOfOpt a.trajectory ++ "'"])
          (fun b hb => hgen b (by simp [hb])) hne
      | some traj =>
        cases hma : assocGet models (a.model_id.getD "") with
        | none =>
          have hmr : missingRefs ts models (a :: rest) =
              ("model '" ++ a.model_id.getD "" ++ "'") :: missingRefs ts models rest := by
            simp only [missingRefs, if_neg hfa, hta, hma]
          rw [hmr] at hne ⊢
          rw [List.append_cons] at hne ⊢
          simp only [gcLoop, if_neg hfa, hta, hma]
          exact ih out (missing ++ ["model '" ++ a.model_id.getD "" ++ "'"])
            (fun b hb => hgen b (by simp [hb])) hne
        | some model =>
          have hmr : missingRefs ts models (a :: rest) = missingRefs ts models rest := by
            simp only [missingRefs, if_neg hfa, hta, hma]
          rw [hmr] at hne ⊢
          obtain ⟨cs, hcs⟩ := hgen a (by simp) (by simpa using hfa) traj hta model hma
          simp only [gcLoop, if_neg hfa, hta, hma, hcs]
          exact ih (out ++ cs) missing (fun b hb => hgen b (by simp [hb])) hne

/-- C10.  `generate_contacts` silently skips any assignment whose `model_id`
is missing or empty — removing such an assignment anywhere in the batch
changes nothing, even when its trajectory name is unknown — while every
assignment with a non-empty `model_id` referencing an unknown trajectory or
model contributes a message to one aggregated error raised only after the
whole batch is examined (provided the well-referenced assignments themselves
generate without raising). -/
theorem c10_generate_contacts_skip_and_aggregate
    (ts : List Trajectory) (models : List (String × ContactModel)) :
    (∀ (pre post : List EAssignment) (a : EAssignment), pyFalsyStr a.model_id = true →
      generate_contacts ts models (pre ++ a :: post) =
        generate_contacts ts models (pre ++ post)) ∧
    (∀ asgs : List EAssignment,
      (∀ a ∈ asgs, pyFalsyStr a.model_id = false →
        ∀ t, trajGetOpt ts a.trajectory = some t →
        ∀ m, assocGet models (a.model_id.getD "") = some m →
        ∃ cs, generate_contacts_for_assignment t m a = .ok cs) →
      missingRefs ts models asgs ≠ [] →
      generate_contacts ts models asgs =
        .error ("Missing references in assignments: " ++
          String.intercalate ", " (missingRefs ts models asgs))) := by
  constructor
  · intro pre post a hfa
    exact gcLoop_skip_falsy ts models a hfa pre post [] []
  · intro asgs hgen hne
    have := gcLoop_missing_error ts models asgs [] [] hgen (by simpa using hne)
    simpa [generate_contacts] using this

def c10Trajs : List Trajectory := [⟨"T", ⟨0, 0, 0⟩, ⟨0, 0, 50⟩⟩]

def c10Models : List (String × ContactModel) := [("M", ⟨"M", [2]⟩)]

/-- A skipped assignment: missing `model_id` and an unknown trajectory. -/
def c10FalsyAsg : EAssignment := ⟨some "X", none, none, 0, [0, 0, 0]⟩

/-- Batch with one unknown trajectory and one unknown model. -/
def c10BadAsgs : List EAssignment :=
  [⟨some "X", some "M", none, 0, [0, 0, 0]⟩, ⟨some "T", some "Q", none, 0, [0, 0, 0]⟩]

theorem c10_generate_contacts_skip_and_aggregate_witness :
    (pyFalsyStr c10FalsyAsg.model_id = true ∧
      generate_contacts c10Trajs c10Models [c10FalsyAsg] =
        generate_contacts c10Trajs c10Models [] ∧
      generate_contacts c10Trajs c10Models [] = .ok []) ∧
    (missingRefs c10Trajs c10Models c10BadAsgs ≠ [] ∧
      generate_contacts c10Trajs c10Models c10BadAsgs =
        .error "Missing references in assignments: trajectory 'X', model 'Q'") := by
  have hgen : ∀ a ∈ c10BadAsgs, pyFalsyStr a.model_id = false →
      ∀ t, trajGetOpt c10Trajs a.trajectory = some t →
      ∀ m, assocGet c10Models (a.model_id.getD "") = some m →
      ∃ cs, generate_contacts_for_assignment t m a = .ok cs := by
    intro a ha hfa t ht m hm
    rcases (by simpa [c10BadAsgs] using ha : a = _ ∨ a = _) with rfl | rfl
    · simp [trajGetOpt, assocGet, c10Trajs] at ht
    · simp [assocGet, c10Models] at hm
  have hne : missingRefs c10Trajs c10Models c10BadAsgs ≠ [] := by decide
  refine ⟨⟨by decide, ?_, rfl⟩, hne, ?_⟩
  · exact (c10_generate_contacts_skip_and_aggregate c10Trajs c10Models).1 [] [] c10FalsyAsg
      (by decide)
  · have h := (c10_generate_contacts_skip_and_aggregate c10Trajs c10Models).2 c10BadAsgs hgen hne
    rw [h]
    rfl

/-! ## `contact_fit.py`: the electrode-axis fitter -/

/-- `contact_fit.unit` (raises `ValueError("Zero-length vector")`). -/
def unitE (v : Vec3) : Except String Vec3 :=
  match vunit? v with
  | none => .error "Zero-length vector"
  | some u => .ok u

/-- `contact_fit.angle_deg`: unsigned angle between two vectors; `acosDeg`
models `math.degrees(math.acos(·))`, the only real-valued step. -/
def angle_degE (acosDeg : ℚ → ℚ) (u v : Vec3) : Except String ℚ :=
  match vunit? u with
  | none => .error "Zero-length vector"
  | some u2 =>
    match vunit? v with
    | none => .error "Zero-length vector"
    | some v2 => .ok (acosDeg (min 1 (max (-1) (vdot u2 v2))))

/-- Perpendicular distances of points to the line through `p0` with unit
direction `d` (`contact_fit.point_line_distance` with the renormalization of
`d` inlined: at every call site of the fitter `d` is already a normalized
direction, for which `unit` is the identity in real arithmetic). -/
def distsTo (pts : List Vec3) (p0 d : Vec3) : List ℚ :=
  pts.map (fun p => vnorm (vsub p (vadd p0 (vsmul (vdot (vsub p p0) d) d))))

/-- `contact_fit.filter_points_in_segment_cylinder`. -/
def filter_points_in_segment_cylinder (pts : List Vec3) (p0 p1 : Vec3)
    (radius margin : ℚ) : Except String (List Vec3) :=
  if pts.length = 0 then .ok []
  else
    match vunit? (vsub p1 p0) with
    | none => .error "Zero-length vector"
    | some axis =>
      let len := vnorm (vsub p1 p0)
      .ok (pts.filter (fun p =>
        let t := vdot (vsub p p0) axis
        let d := vnorm (vsub p (vadd p0 (vsmul t axis)))
        decide (d ≤ radius) && decide (-margin ≤ t) && decide (t ≤ len + margin)))

/-- Component-wise mean of a point list (`np.mean(pts, axis=0)`). -/
def vmean (pts : List Vec3) : Vec3 :=
  ⟨(pts.map Vec3.x).sum / pts.length, (pts.map Vec3.y).sum / pts.length,
    (pts.map Vec3.z).sum / pts.length⟩

/-- `contact_fit.fit_axis_pca`.  The principal-axis extraction
(`np.linalg.eigh` of the centered covariance, eigenvector of the largest
eigenvalue) has no rational closed form and is threaded as the explicit
parameter `pcaAxis`; the center (the mean) and the final `unit`
normalization follow the source. -/
def fit_axis_pca (pcaAxis : List Vec3 → Vec3) (pts : List Vec3) :
    Except String (Vec3 × Vec3) :=
  if pts.length < 3 then .error "At least 3 points are required for axis fitting"
  else
    match vunit? (pcaAxis pts) with
    | none => .error "Zero-length vector"
    | some axis => .ok (vmean pts, axis)

/-- One step of a linear congruential stream (the deterministic model of the
seeded numpy generator). -/
def lcgNext (x : Nat) : Nat := (x * 1103515245 + 12345) % 4294967296

def rngPairsAux (n : Nat) : Nat → Nat → List (Nat × Nat)
  | 0, _ => []
  | k + 1, x =>
    let x1 := lcgNext x
    let x2 := lcgNext x1
    let i := x1 % n
    let j0 := x2 % (n - 1)
    (i, if j0 ≥ i then j0 + 1 else j0) :: rngPairsAux n k x2

/-- Deterministic model of `np.random.default_rng(seed).choice(n, size=2,
replace=False)` drawn `iters` times: a pure function of the seed producing
pairs of distinct indices below `n`.  The exact PCG64 stream is not
modelled — only its determinism in the seed and the distinctness that
`replace=False` guarantees. -/
def rngPairs (seed n iters : Nat) : List (Nat × Nat) :=
  if n < 2 then [] else rngPairsAux n iters seed

/-- The candidate line of one RANSAC draw: base point and normalized
direction, `none` when the two sampled points nearly coincide (the
`dn <= 1e-9: continue` branch). -/
def candLine (pts : List Vec3) (pr : Nat × Nat) : Option (Vec3 × Vec3) :=
  let p0 := pts.getD pr.1 default
  (vunit? (vsub (pts.getD pr.2 default) p0)).map (fun d => (p0, d))

/-- The inlier mask of one RANSAC draw (`dist <= thr`). -/
def candMask (pts : List Vec3) (thr : ℚ) (pr : Nat × Nat) : Option (List Bool) :=
  (candLine pts pr).map (fun c => (distsTo pts c.1 c.2).map (fun q => decide (q ≤ thr)))

/-- The inlier count of one RANSAC draw. -/
def candCount (pts : List Vec3) (thr : ℚ) (pr : Nat × Nat) : Nat :=
  ((candMask pts thr pr).getD []).count true

/-- The mean inlier distance of one RANSAC draw (`np.mean(dist[mask])`). -/
def candScore (pts : List Vec3) (thr : ℚ) (pr : Nat × Nat) : ℚ :=
  match candLine pts pr with
  | none => 0
  | some c =>
    let ds := (distsTo pts c.1 c.2).filter (fun q => decide (q ≤ thr))
    ds.sum / ds.length

/-- One iteration of the RANSAC loop: track the candidate with the largest
inlier count, ties broken by smaller mean inlier distance (the `None`
initial state together with `best_count = -1` makes the first valid
candidate always win). -/
def ransacStep (pts : List Vec3) (thr : ℚ)
    (best : Option (List Bool × Nat × ℚ)) (pr : Nat × Nat) :
    Option (List Bool × Nat × ℚ) :=
  match candMask pts thr pr with
  | none => best
  | some mask =>
    let count := mask.count true
    if count ≤ 0 then best
    else
      let score := candScore pts thr pr
      match best with
      | none => some (mask, count, score)
      | some b =>
        if count > b.2.1 ∨ (count = b.2.1 ∧ score < b.2.2) then some (mask, count, score)
        else some b

/-- Keep the entries of `pts` selected by the boolean mask (`pts[mask]`). -/
def maskFilter (pts : List Vec3) (mask : List Bool) : List Vec3 :=
  (pts.zip mask).filterMap (fun pm => if pm.2 then some pm.1 else none)

/-- `sqrt(mean(dist**2))` with the empty guard of the source. -/
def rmsOf (ds : List ℚ) : ℚ :=
  if ds.length = 0 then 0 else Rat.sqrt ((ds.map (fun q => q ^ 2)).sum / ds.length)

/-- `contact_fit.ransac_fit_line`: returns `(center, axis, inlier mask, rms)`
or the fallback PCA fit over all points with an all-true mask and a `0.0`
residual when no draw reaches `min_inliers`. -/
def ransac_fit_line (pcaAxis : List Vec3 → Vec3) (pts : List Vec3)
    (max_iterations : Nat) (inlier_threshold_mm : ℚ) (min_inliers : Nat) (rng_seed : Nat) :
    Except String (Vec3 × Vec3 × List Bool × ℚ) :=
  if pts.length < 2 then .error "At least 2 points are required for RANSAC line fit"
  else
    match (rngPairs rng_seed pts.length max_iterations).foldl
        (ransacStep pts inlier_threshold_mm) none with
    | none =>
      match fit_axis_pca pcaAxis pts with
      | .error e => .error e
      | .ok ca => .ok (ca.1, ca.2, List.replicate pts.length true, 0)
    | some b =>
      if b.2.1 < min_inliers then
        match fit_axis_pca pcaAxis pts with
        | .error e => .error e
        | .ok ca => .ok (ca.1, ca.2, List.replicate pts.length true, 0)
      else
        let inliers := maskFilter pts b.1
        match fit_axis_pca pcaAxis inliers with
        | .error e => .error e
        | .ok ca => .ok (ca.1, ca.2, b.1, rmsOf (distsTo inliers ca.1 ca.2))

/-- `np.arange(start, stop, step)` for a positive step (the only case used:
`step_mm = 1.0`). -/
def arangeQ (start stop step : ℚ) : List ℚ :=
  if 0 < step ∧ start < stop then
    (List.range (Int.toNat ⌈(stop - start) / step⌉)).map (fun k => start + step * k)
  else []

/-- `contact_fit.build_slab_centroids`: one centroid (and its signed depth)
per 1-mm slab center holding at least `min_points_per_slab` points. -/
def build_slab_centroids (pts : List Vec3) (origin axis0 : Vec3)
    (t_min t_max step half : ℚ) (min_points_per_slab : Nat) :
    Except String (List Vec3 × List ℚ) :=
  if pts.length = 0 then .ok ([], [])
  else
    match vunit? axis0 with
    | none => .error "Zero-length vector"
    | some axis =>
      let centers := arangeQ t_min (t_max + step * (1 / 2)) step
      let slabs := centers.filterMap (fun tc =>
        let slab := pts.filter (fun p => decide (pyAbs (vdot (vsub p origin) axis - tc) ≤ half))
        if slab.length < min_points_per_slab then none
        else some (vmean slab, vdot (vsub (vmean slab) origin) axis))
      .ok (slabs.map Prod.fst, slabs.map Prod.snd)

/-- `np.max` on a nonempty list (junk `0` on the unused empty case). -/
def listMax : List ℚ → ℚ
  | [] => 0
  | x :: xs => xs.foldl max x

/-- `np.min` on a nonempty list (junk `0` on the unused empty case). -/
def listMin : List ℚ → ℚ
  | [] => 0
  | x :: xs => xs.foldl min x

/-- `np.mean` of a list. -/
def listMean (l : List ℚ) : ℚ := l.sum / l.length

/-- `np.quantile(xs, q)` with the default linear interpolation. -/
def quantileQ (xs : List ℚ) (q : ℚ) : ℚ :=
  let s := pySorted (fun a b => decide (a < b)) xs
  if s.length = 0 then 0
  else
    let h := q * ((s.length : ℚ) - 1)
    s.getD (Int.toNat ⌊h⌋) 0 +
      (h - (⌊h⌋ : ℚ)) * (s.getD (Int.toNat ⌈h⌉) 0 - s.getD (Int.toNat ⌊h⌋) 0)

/-- `np.clip(x, lo, hi)`. -/
def npClip (x lo hi : ℚ) : ℚ := min hi (max lo x)

/-- `contact_fit._planned_tip_and_axis` (`.lower()` not modelled; tip anchor
strings are taken as already lower-case). -/
def _planned_tip_and_axis (entry target : Vec3) (tip_at : Option String) :
    Except String (Vec3 × Vec3) :=
  let t := tipAtResolved (tip_at.getD "target")
  if t = "entry" then
    match unitE (vsub target entry) with
    | .error e => .error e
    | .ok axis => .ok (entry, axis)
  else
    match unitE (vsub entry target) with
    | .error e => .error e
    | .ok axis => .ok (target, axis)

/-- The success payload of the fitter (all fields of the returned dict). -/
structure FitSuccess where
  entry_lps : Vec3
  target_lps : Vec3
  tip_shift_mm : ℚ
  lateral_shift_mm : ℚ
  angle_deg : ℚ
  residual_mm : ℚ
  one_d_residual_mm : ℚ
  points_in_roi : Nat
  slab_centroids : Nat
  slab_inliers : Nat
  ransac_rms_mm : ℚ
  axis_lps : Vec3
  deep_axis_lps : Vec3
  center_lps : Vec3
  deep_t_raw_mm : ℚ
  deep_t_clamped_mm : ℚ
  planned_target_t_mm : ℚ
  planned_tip_lps : Vec3
  planned_tip_axis_lps : Vec3
  slab_t_min_mm : ℚ
  slab_t_max_mm : ℚ
  slab_t_used_count : Nat
deriving DecidableEq, Repr

/-- The fitter's result value: a structured failure (with whatever
diagnostics the failing stage had computed) or a success payload.  Failures
are ordinary return values; a raised exception is the `Except.error` of the
surrounding `Except`. -/
inductive FitResult where
  | failure (reason : String) (points_in_roi : Option Nat) (slab_centroids : Option Nat)
      (angle_deg : Option ℚ)
  | success (s : FitSuccess)
deriving DecidableEq, Repr

/-- `contact_fit.fit_electrode_axis_and_tip`.  The `:.2f` formatting of the
angle-gate reason string is not modelled (`toString` of the exact rational is
used); `acosDeg` and `pcaAxis` model the two real-valued library calls. -/
def fit_electrode_axis_and_tip (acosDeg : ℚ → ℚ) (pcaAxis : List Vec3 → Vec3)
    (candidate_points_lps : List Vec3) (planned_entry_lps planned_target_lps : Vec3)
    (contact_offsets_mm : List ℚ) (tip_at : Option String)
    (roi_radius_mm max_angle_deg max_depth_shift_mm : ℚ) :
    Except String FitResult :=
  let pts := candidate_points_lps
  if pts.length = 0 then .ok (.failure "No candidate points" none none none)
  else
    let entry := planned_entry_lps
    let target := planned_target_lps
    let planned_length := vnorm (vsub entry target)
    if planned_length ≤ 1e-6 then
      .ok (.failure "Zero-length planned trajectory" none none none)
    else
      match _planned_tip_and_axis entry target tip_at with
      | .error e => .error e
      | .ok pta =>
        match unitE (vsub target entry) with
        | .error e => .error e
        | .ok planned_deep_axis =>
          match filter_points_in_segment_cylinder pts entry target roi_radius_mm
              (max_depth_shift_mm + 5) with
          | .error e => .error e
          | .ok roi_pts =>
            if roi_pts.length < 24 then
              .ok (.failure "Too few CT points in ROI" (some roi_pts.length) none none)
            else
              let slab_t_min := -max_depth_shift_mm
              let slab_t_max := planned_length + max_depth_shift_mm
              match build_slab_centroids roi_pts entry planned_deep_axis slab_t_min slab_t_max
                  1 (9 / 10) 8 with
              | .error e => .error e
              | .ok sc =>
                if sc.1.length < 8 then
                  .ok (.failure "Too few slab centroids for robust line fit"
                    (some roi_pts.length) (some sc.1.length) none)
                else
                  match ransac_fit_line pcaAxis sc.1 220
                      (min 1.2 (max 0.45 (roi_radius_mm * 0.55)))
                      (max 6 (Int.toNat ⌊(0.45 : ℚ) * (sc.1.length : ℚ)⌋)) 0 with
                  | .error e => .error e
                  | .ok rf =>
                    let fit_deep_axis :=
                      if vdot rf.2.1 planned_deep_axis < 0 then vsmul (-1) rf.2.1 else rf.2.1
                    let fit_super_axis := vsmul (-1) fit_deep_axis
                    match angle_degE acosDeg planned_deep_axis fit_deep_axis with
                    | .error e => .error e
                    | .ok ang =>
                      if ang > max_angle_deg then
                        .ok (.failure ("Angle deviation " ++ toString ang ++
                            " deg exceeds max " ++ toString max_angle_deg)
                          (some roi_pts.length) (some sc.1.length) (some ang))
                      else
                        -- `inlier_mask is not None` always holds in this embedding.
                        let ic0 := maskFilter sc.1 rf.2.2.1
                        let inlier_centroids := if ic0.length < 3 then sc.1 else ic0
                        let t_in := inlier_centroids.map
                          (fun c => vdot (vsub c rf.1) fit_deep_axis)
                        let planned_target_t := vdot (vsub target rf.1) fit_deep_axis
                        let deep_min := planned_target_t - max_depth_shift_mm
                        let deep_max := planned_target_t + max_depth_shift_mm
                        let near := t_in.filter
                          (fun t => decide (deep_min ≤ t) && decide (t ≤ deep_max))
                        let deep_t_raw :=
                          if near.length ≠ 0 then listMax near else quantileQ t_in (95 / 100)
                        let deep_t := npClip deep_t_raw deep_min deep_max
                        let fitted_target := vadd rf.1 (vsmul deep_t fit_deep_axis)
                        let fitted_entry := vsub fitted_target (vsmul planned_length fit_deep_axis)
                        if contact_offsets_mm.length = 0 then
                          .ok (.failure "No model offsets provided" none none none)
                        else
                          let tipax :=
                            if tipAtResolved (tip_at.getD "target") = "entry" then
                              (fitted_entry, fit_deep_axis)
                            else (fitted_target, fit_super_axis)
                          let pred_centers := contact_offsets_mm.map
                            (fun o => vadd tipax.1 (vsmul o tipax.2))
                          let residual_3d := listMean (pred_centers.map
                            (fun pc => listMin (roi_pts.map (fun p => vnorm (vsub pc p)))))
                          let cand_t := roi_pts.map
                            (fun p => vdot (vsub p fitted_target) fit_deep_axis)
                          let pred_t := pred_centers.map
                            (fun pc => vdot (vsub pc fitted_target) fit_deep_axis)
                          let one_d_residual := listMean (pred_t.map
                            (fun qt => listMin (cand_t.map (fun ct => pyAbs (ct - qt)))))
                          let delta_target := vsub fitted_target target
                          let lateral_vec := vsub delta_target
                            (vsmul (vdot delta_target fit_deep_axis) fit_deep_axis)
                          .ok (.success
                            { entry_lps := fitted_entry
                              target_lps := fitted_target
                              tip_shift_mm := vdot (vsub fitted_target target) fit_deep_axis
                              lateral_shift_mm := vnorm lateral_vec
                              angle_deg := ang
                              residual_mm := residual_3d
                              one_d_residual_mm := one_d_residual
                              points_in_roi := roi_pts.length
                              slab_centroids := sc.1.length
                              slab_inliers := inlier_centroids.length
                              ransac_rms_mm := rf.2.2.2
                              axis_lps := fit_super_axis
                              deep_axis_lps := fit_deep_axis
                              center_lps := rf.1
                              deep_t_raw_mm := deep_t_raw
                              deep_t_clamped_mm := deep_t
                              planned_target_t_mm := planned_target_t
                              planned_tip_lps := pta.1
                              planned_tip_axis_lps := pta.2
                              slab_t_min_mm := slab_t_min
                              slab_t_max_mm := slab_t_max
                              slab_t_used_count := sc.2.length })

theorem ratSqrt_zero : Rat.sqrt 0 = 0 := by
  simp

theorem vnorm_vsub_comm (a b : Vec3) : vnorm (vsub a b) = vnorm (vsub b a) := by
  rw [vnorm, vnormSq_vsub_comm, ← vnorm]

/-- A non-degenerate planned trajectory always yields a planned tip/axis pair
(no exception from the internal `unit` calls). -/
theorem planned_tip_and_axis_ok (entry target : Vec3) (tip_at : Option String)
    (h : ¬ vnorm (vsub entry target) ≤ 1e-9) :
    ∃ p, _planned_tip_and_axis entry target tip_at = .ok p := by
  have h2 : ¬ vnorm (vsub target entry) ≤ 1e-9 := by
    rw [vnorm_vsub_comm]; exact h
  simp only [_planned_tip_and_axis, unitE, vunit?]
  by_cases ht : tipAtResolved (tip_at.getD "target") = "entry"
  · rw [if_pos ht, if_neg h2]
    exact ⟨_, rfl⟩
  · rw [if_neg ht, if_neg h]
    exact ⟨_, rfl⟩

/-- C5 (amended).  For a non-empty candidate cloud and a degenerate planned
trajectory (`entry = target` up to the 1e-6 length test), the fitter does
not raise: it returns the structured failure value with reason
`"Zero-length planned trajectory"`. -/
theorem c5_fit_zero_length_failure_value (acosDeg : ℚ → ℚ) (pcaAxis : List Vec3 → Vec3)
    (pts : List Vec3) (entry target : Vec3) (offs : List ℚ) (tip_at : Option String)
    (rr ma md : ℚ)
    (hne : pts ≠ [])
    (hz : vnorm (vsub entry target) ≤ 1e-6) :
    fit_electrode_axis_and_tip acosDeg pcaAxis pts entry target offs tip_at rr ma md =
      .ok (.failure "Zero-length planned trajectory" none none none) := by
  have h0 : ¬ (pts.length = 0) := by simpa using hne
  simp only [fit_electrode_axis_and_tip]
  rw [if_neg h0, if_pos hz]

/-- C5 counterexample to the claim as stated: at a degenerate planned
trajectory the fitter returns a structured failure value — it does not raise
(the surrounding `Except` is `.ok`, never `.error`). -/
theorem c5_zero_length_raises_counterexample :
    fit_electrode_axis_and_tip (fun _ => 0) (fun _ => ⟨1, 0, 0⟩) [⟨0, 0, 0⟩]
        ⟨1, 2, 3⟩ ⟨1, 2, 3⟩ [1] (some "target") 3 12 20 =
      .ok (.failure "Zero-length planned trajectory" none none none) ∧
    (∀ e, fit_electrode_axis_and_tip (fun _ => 0) (fun _ => ⟨1, 0, 0⟩) [⟨0, 0, 0⟩]
        ⟨1, 2, 3⟩ ⟨1, 2, 3⟩ [1] (some "target") 3 12 20 ≠ .error e) := by
  have hz : vnorm (vsub (⟨1, 2, 3⟩ : Vec3) ⟨1, 2, 3⟩) ≤ 1e-6 := by
    rw [show vsub (⟨1, 2, 3⟩ : Vec3) ⟨1, 2, 3⟩ = ⟨0, 0, 0⟩ from by norm_num [vsub]]
    rw [vnorm_zero]
    norm_num
  have h : fit_electrode_axis_and_tip (fun _ => 0) (fun _ => ⟨1, 0, 0⟩) [⟨0, 0, 0⟩]
      ⟨1, 2, 3⟩ ⟨1, 2, 3⟩ [1] (some "target") 3 12 20 =
      .ok (.failure "Zero-length planned trajectory" none none none) := by
    simp only [fit_electrode_axis_and_tip]
    rw [if_neg (by simp), if_pos hz]
  exact ⟨h, fun e hcon => by rw [h] at hcon; cases hcon⟩

theorem c5_fit_zero_length_failure_value_witness :
    (([⟨0, 0, 0⟩] : List Vec3) ≠ [] ∧
      vnorm (vsub (⟨1, 2, 3⟩ : Vec3) ⟨1, 2, 3⟩) ≤ 1e-6) ∧
    fit_electrode_axis_and_tip (fun _ => 1) (fun _ => ⟨0, 1, 0⟩) [⟨0, 0, 0⟩]
        ⟨1, 2, 3⟩ ⟨1, 2, 3⟩ [2] none 3 12 20 =
      .ok (.failure "Zero-length planned trajectory" none none none) := by
  have hz : vnorm (vsub (⟨1, 2, 3⟩ : Vec3) ⟨1, 2, 3⟩) ≤ 1e-6 := by
    rw [show vsub (⟨1, 2, 3⟩ : Vec3) ⟨1, 2, 3⟩ = ⟨0, 0, 0⟩ from by norm_num [vsub]]
    rw [vnorm_zero]
    norm_num
  exact ⟨⟨by simp, hz⟩,
    c5_fit_zero_length_failure_value (fun _ => 1) (fun _ => ⟨0, 1, 0⟩) [⟨0, 0, 0⟩]
      ⟨1, 2, 3⟩ ⟨1, 2, 3⟩ [2] none 3 12 20 (by simp) hz⟩

theorem candCount_le_length (pts : List Vec3) (thr : ℚ) (pr : Nat × Nat) :
    candCount pts thr pr ≤ pts.length := by
  unfold candCount
  cases hmask : candMask pts thr pr with
  | none => simp
  | some mask =>
    have hlen : mask.length = pts.length := by
      unfold candMask at hmask
      cases hline : candLine pts pr with
      | none =>
        rw [hline] at hmask
        cases hmask
      | some c =>
        rw [hline] at hmask
        simp only [Option.map] at hmask
        cases hmask
        simp [distsTo]
    calc ((some mask).getD []).count true = mask.count true := rfl
      _ ≤ mask.length := List.count_le_length _ _
      _ = pts.length := hlen

theorem ransacStep_eq_none (pts : List Vec3) (thr : ℚ) (best : Option (List Bool × Nat × ℚ))
    (pr : Nat × Nat) (h : candMask pts thr pr = none) :
    ransacStep pts thr best pr = best := by
  unfold ransacStep
  rw [h]

theorem ransacStep_eq_some_none (pts : List Vec3) (thr : ℚ) (pr : Nat × Nat)
    (mask : List Bool) (h : candMask pts thr pr = some mask) :
    ransacStep pts thr none pr =
      if mask.count true ≤ 0 then none
      else some (mask, mask.count true, candScore pts thr pr) := by
  unfold ransacStep
  rw [h]

theorem ransacStep_eq_some_some (pts : List Vec3) (thr : ℚ) (pr : Nat × Nat)
    (mask : List Bool) (b : List Bool × Nat × ℚ) (h : candMask pts thr pr = some mask) :
    ransacStep pts thr (some b) pr =
      if mask.count true ≤ 0 then some b
      else if mask.count true > b.2.1 ∨ (mask.count true = b.2.1 ∧ candScore pts thr pr < b.2.2)
        then some (mask, mask.count true, candScore pts thr pr)
        else some b := by
  unfold ransacStep
  rw [h]

theorem ransacFold_below (pts : List Vec3) (thr : ℚ) (minI : Nat) :
    ∀ (draws : List (Nat × Nat)) (best : Option (List Bool × Nat × ℚ)),
      (∀ pr ∈ draws, candCount pts thr pr < minI) →
      (∀ m c s, best = some (m, c, s) → c < minI) →
      ∀ m c s, draws.foldl (ransacStep pts thr) best = some (m, c, s) → c < minI := by
  intro draws
  induction draws with
  | nil =>
    intro best _ hb m c s h
    exact hb m c s h
  | cons pr rest ih =>
    intro best hdraw hb m c s h
    have hstep : ∀ m2 c2 s2, ransacStep pts thr best pr = some (m2, c2, s2) → c2 < minI := by
      intro m2 c2 s2 h2
      have hprlt := hdraw pr (by simp)
      cases hmask : candMask pts thr pr with
      | none =>
        rw [ransacStep_eq_none pts thr best pr hmask] at h2
        exact hb m2 c2 s2 h2
      | some mask =>
        have hcnt : mask.count true = candCount pts thr pr := by
          simp [candCount, hmask]
        cases hbest : best with
        | none =>
          rw [hbest, ransacStep_eq_some_none pts thr pr mask hmask] at h2
          by_cases hc0 : mask.count true ≤ 0
          · rw [if_pos hc0] at h2
            cases h2
          · rw [if_neg hc0] at h2
            cases h2
            omega
        | some b =>
          rw [hbest, ransacStep_eq_some_some pts thr pr mask b hmask] at h2
          by_cases hc0 : mask.count true ≤ 0
          · rw [if_pos hc0] at h2
            exact hb m2 c2 s2 (hbest.trans h2)
          · rw [if_neg hc0] at h2
            by_cases hcond : mask.count true > b.2.1 ∨
                (mask.count true = b.2.1 ∧ candScore pts thr pr < b.2.2)
            · rw [if_pos hcond] at h2
              cases h2
              omega
            · rw [if_neg hcond] at h2
              exact hb m2 c2 s2 (hbest.trans h2)
    exact ih (ransacStep pts thr best pr) (fun q hq => hdraw q (by simp [hq])) hstep m c s h

/-- C6 (amended).  On a centroid set of at least 3 points for which no RANSAC
draw reaches the minimum inlier count, the line fit does not fail: it falls
back to the PCA fit over *all* centroids (mean center, normalized principal
axis) with an all-true inlier mask and an exactly-zero residual signal.  (On
a 2-point set the same no-consensus situation instead raises from
`fit_axis_pca`, see the counterexample.) -/
theorem c6_ransac_no_consensus_pca_fallback (pcaAxis : List Vec3 → Vec3)
    (pts : List Vec3) (iters : Nat) (thr : ℚ) (minI seed : Nat)
    (h3 : 3 ≤ pts.length)
    (hdraw : ∀ pr ∈ rngPairs seed pts.length iters, candCount pts thr pr < minI)
    (hpca : ¬ vnorm (pcaAxis pts) ≤ 1e-9) :
    ransac_fit_line pcaAxis pts iters thr minI seed =
      .ok (vmean pts,
        ⟨(pcaAxis pts).x / vnorm (pcaAxis pts), (pcaAxis pts).y / vnorm (pcaAxis pts),
          (pcaAxis pts).z / vnorm (pcaAxis pts)⟩,
        List.replicate pts.length true, 0) := by
  have h2 : ¬ pts.length < 2 := by omega
  have hpcafit : fit_axis_pca pcaAxis pts =
      .ok (vmean pts,
        ⟨(pcaAxis pts).x / vnorm (pcaAxis pts), (pcaAxis pts).y / vnorm (pcaAxis pts),
          (pcaAxis pts).z / vnorm (pcaAxis pts)⟩) := by
    unfold fit_axis_pca
    rw [if_neg (by omega : ¬ pts.length < 3)]
    unfold vunit?
    rw [if_neg hpca]
  unfold ransac_fit_line
  rw [if_neg h2]
  cases hfold : (rngPairs seed pts.length iters).foldl
      (ransacStep pts thr) none with
  | none =>
    rw [hpcafit]
  | some b =>
    have hc : b.2.1 < minI :=
      ransacFold_below pts thr minI _ none hdraw (by simp) b.1 b.2.1 b.2.2
        (by rw [hfold])
    simp only []
    rw [if_pos hc, hpcafit]

theorem ratSqrt_one : Rat.sqrt 1 = 1 := by
  simp

/-- Two centroids on which no draw reaches the minimum inlier count. -/
def c6TwoPts : List Vec3 := [⟨0, 0, 0⟩, ⟨1, 0, 0⟩]

/-- C6 counterexample to the claim as stated: on a 2-point centroid set no
iteration can reach the minimum inlier count `max(6, 45%·n) = 6`, yet the
line-fit step does not return the claimed PCA fallback — it raises (the
fallback `fit_axis_pca` needs at least 3 points). -/
theorem c6_no_consensus_counterexample :
    (∀ pr ∈ rngPairs 0 c6TwoPts.length 1,
      candCount c6TwoPts (9 / 10) pr < max 6 (Int.toNat ⌊(0.45 : ℚ) * (c6TwoPts.length : ℚ)⌋)) ∧
    ransac_fit_line (fun _ => ⟨1, 0, 0⟩) c6TwoPts 1 (9 / 10)
        (max 6 (Int.toNat ⌊(0.45 : ℚ) * (c6TwoPts.length : ℚ)⌋)) 0 =
      .error "At least 3 points are required for axis fitting" := by
  have hmax : 6 ≤ max 6 (Int.toNat ⌊(0.45 : ℚ) * (c6TwoPts.length : ℚ)⌋) := le_max_left _ _
  have hlen : c6TwoPts.length = 2 := rfl
  constructor
  · intro pr _
    have h := candCount_le_length c6TwoPts (9 / 10) pr
    omega
  · have hdraws : rngPairs 0 c6TwoPts.length 1 = [(1, 0)] := by decide
    have hm : candMask c6TwoPts (9 / 10) (1, 0) = some [true, true] := by
      norm_num [candMask, candLine, distsTo, vunit?, vsub, vadd, vsmul, vdot, vnorm,
        vnormSq, c6TwoPts, ratSqrt_one, ratSqrt_zero]
    have hfold : (rngPairs 0 c6TwoPts.length 1).foldl (ransacStep c6TwoPts (9 / 10)) none =
        some ([true, true], 2, candScore c6TwoPts (9 / 10) (1, 0)) := by
      rw [hdraws]
      simp only [List.foldl]
      rw [ransacStep_eq_some_none _ _ _ _ hm]
      rw [if_neg (by decide)]
      rw [show ([true, true] : List Bool).count true = 2 from by decide]
    have hpcaerr : fit_axis_pca (fun _ => (⟨1, 0, 0⟩ : Vec3)) c6TwoPts =
        .error "At least 3 points are required for axis fitting" := by
      unfold fit_axis_pca
      rw [if_pos (by omega)]
    unfold ransac_fit_line
    rw [if_neg (by omega)]
    rw [hfold]
    simp only []
    rw [if_pos (by omega), hpcaerr]

/-- Three collinear centroids for the C6 witness. -/
def c6ThreePts : List Vec3 := [⟨0, 0, 0⟩, ⟨1, 0, 0⟩, ⟨2, 0, 0⟩]

theorem c6_ransac_no_consensus_pca_fallback_witness :
    (3 ≤ c6ThreePts.length ∧
      (∀ pr ∈ rngPairs 0 c6ThreePts.length 2, candCount c6ThreePts (9 / 10) pr < 6) ∧
      ¬ vnorm ((fun (_ : List Vec3) => (⟨1, 0, 0⟩ : Vec3)) c6ThreePts) ≤ 1e-9) ∧
    ransac_fit_line (fun _ => ⟨1, 0, 0⟩) c6ThreePts 2 (9 / 10) 6 0 =
      .ok (vmean c6ThreePts,
        ⟨(1 : ℚ) / vnorm ⟨1, 0, 0⟩, (0 : ℚ) / vnorm ⟨1, 0, 0⟩, (0 : ℚ) / vnorm ⟨1, 0, 0⟩⟩,
        List.replicate c6ThreePts.length true, 0) := by
  have hlen : c6ThreePts.length = 3 := rfl
  have hnorm1 : vnorm (⟨1, 0, 0⟩ : Vec3) = 1 := by
    rw [vnorm, show vnormSq (⟨1, 0, 0⟩ : Vec3) = 1 from by norm_num [vnormSq], ratSqrt_one]
  have hdraw : ∀ pr ∈ rngPairs 0 c6ThreePts.length 2, candCount c6ThreePts (9 / 10) pr < 6 := by
    intro pr _
    have h := candCount_le_length c6ThreePts (9 / 10) pr
    omega
  have hpca : ¬ vnorm ((fun (_ : List Vec3) => (⟨1, 0, 0⟩ : Vec3)) c6ThreePts) ≤ 1e-9 := by
    simp only [hnorm1]
    norm_num
  exact ⟨⟨by omega, hdraw, hpca⟩,
    c6_ransac_no_consensus_pca_fallback (fun _ => ⟨1, 0, 0⟩) c6ThreePts 2 (9 / 10) 6 0
      (by omega) hdraw hpca⟩

/-- C7.  For a non-empty candidate cloud and a non-degenerate planned
trajectory, the fitter returns (never raises) a structured failure value
when fewer than 24 points survive ROI extraction — carrying the reason
string and `points_in_roi` — and likewise when at least 24 survive but fewer
than 8 slab centroids are produced, then also carrying the centroid count. -/
theorem c7_fit_few_points_failure_values (acosDeg : ℚ → ℚ) (pcaAxis : List Vec3 → Vec3)
    (pts : List Vec3) (entry target : Vec3) (offs : List ℚ) (tip_at : Option String)
    (rr ma md : ℚ) (roi : List Vec3) (dax : Vec3) (sc : List Vec3 × List ℚ)
    (hne : pts ≠ [])
    (hlen : ¬ vnorm (vsub entry target) ≤ 1e-6)
    (hroi : filter_points_in_segment_cylinder pts entry target rr (md + 5) = .ok roi)
    (hdax : vunit? (vsub target entry) = some dax) :
    (roi.length < 24 →
      fit_electrode_axis_and_tip acosDeg pcaAxis pts entry target offs tip_at rr ma md =
        .ok (.failure "Too few CT points in ROI" (some roi.length) none none)) ∧
    (24 ≤ roi.length →
      build_slab_centroids roi entry dax (-md) (vnorm (vsub entry target) + md) 1 (9 / 10) 8 =
        .ok sc →
      sc.1.length < 8 →
      fit_electrode_axis_and_tip acosDeg pcaAxis pts entry target offs tip_at rr ma md =
        .ok (.failure "Too few slab centroids for robust line fit" (some roi.length)
          (some sc.1.length) none)) := by
  have h0 : ¬ (pts.length = 0) := by simpa using hne
  have h9 : ¬ vnorm (vsub entry target) ≤ 1e-9 := fun hc => hlen (le_trans hc (by norm_num))
  obtain ⟨pta, hpta⟩ := planned_tip_and_axis_ok entry target tip_at h9
  have hunit : unitE (vsub target entry) = .ok dax := by
    unfold unitE
    rw [hdax]
  constructor
  · intro hfew
    unfold fit_electrode_axis_and_tip
    rw [if_neg h0, if_neg hlen]
    simp only [hpta, hunit, hroi]
    rw [if_pos hfew]
  · intro hmany hsc hfewsc
    unfold fit_electrode_axis_and_tip
    rw [if_neg h0, if_neg hlen]
    simp only [hpta, hunit, hroi]
    rw [if_neg (by omega : ¬ roi.length < 24), hsc]
    simp only []
    rw [if_pos hfewsc]

theorem ratSqrt_hundred : Rat.sqrt 100 = 10 := by
  rw [show (100 : ℚ) = 10 ^ 2 from by norm_num, ratSqrt_sq 10 (by norm_num)]

theorem c7_fit_few_points_failure_values_witness :
    (([⟨0, 0, 1⟩] : List Vec3) ≠ [] ∧
      ¬ vnorm (vsub ⟨0, 0, 0⟩ ⟨0, 0, 10⟩) ≤ 1e-6 ∧
      filter_points_in_segment_cylinder [⟨0, 0, 1⟩] ⟨0, 0, 0⟩ ⟨0, 0, 10⟩ 3 (20 + 5) =
        .ok [⟨0, 0, 1⟩] ∧
      vunit? (vsub ⟨0, 0, 10⟩ ⟨0, 0, 0⟩) = some ⟨0, 0, 1⟩ ∧
      ([⟨0, 0, 1⟩] : List Vec3).length < 24) ∧
    fit_electrode_axis_and_tip (fun _ => 0) (fun _ => ⟨0, 0, 1⟩) [⟨0, 0, 1⟩]
        ⟨0, 0, 0⟩ ⟨0, 0, 10⟩ [1] none 3 12 20 =
      .ok (.failure "Too few CT points in ROI" (some 1) none none) := by
  have hsq : vnormSq (vsub (⟨0, 0, 0⟩ : Vec3) ⟨0, 0, 10⟩) = 100 := by
    norm_num [vnormSq, vsub]
  have hlen : ¬ vnorm (vsub (⟨0, 0, 0⟩ : Vec3) ⟨0, 0, 10⟩) ≤ 1e-6 := by
    rw [vnorm, hsq, ratSqrt_hundred]
    norm_num
  have hsq2 : vnormSq (vsub (⟨0, 0, 10⟩ : Vec3) ⟨0, 0, 0⟩) = 100 := by
    norm_num [vnormSq, vsub]
  have hlen10 : vnorm (vsub (⟨0, 0, 10⟩ : Vec3) ⟨0, 0, 0⟩) = 10 := by
    rw [vnorm, hsq2, ratSqrt_hundred]
  have hdax : vunit? (vsub (⟨0, 0, 10⟩ : Vec3) ⟨0, 0, 0⟩) = some ⟨0, 0, 1⟩ := by
    unfold vunit?
    rw [hlen10]
    rw [if_neg (by norm_num)]
    norm_num [vsub]
  have hroi : filter_points_in_segment_cylinder [⟨0, 0, 1⟩] ⟨0, 0, 0⟩ ⟨0, 0, 10⟩ 3 (20 + 5) =
      .ok [⟨0, 0, 1⟩] := by
    unfold filter_points_in_segment_cylinder
    rw [if_neg (by norm_num)]
    rw [hdax]
    simp only [List.filter, hlen10]
    norm_num [vsub, vadd, vsmul, vdot, vnorm, vnormSq, ratSqrt_zero]
  have hfew : ([⟨0, 0, 1⟩] : List Vec3).length < 24 := by norm_num
  have h := (c7_fit_few_points_failure_values (fun _ => 0) (fun _ => ⟨0, 0, 1⟩)
    [⟨0, 0, 1⟩] ⟨0, 0, 0⟩ ⟨0, 0, 10⟩ [1] none 3 12 20 [⟨0, 0, 1⟩] ⟨0, 0, 1⟩ ([], [])
    (by simp) hlen hroi hdax).1 hfew
  exact ⟨⟨by simp, hlen, hroi, hdax, hfew⟩, h⟩

/-- C9.  The fitter and its RANSAC core are pure functions of their explicit
inputs: the pseudo-random draws are derived from the explicit `rng_seed`
(`default_rng(seed)`; `fit_electrode_axis_and_tip` passes the fixed seed 0),
so two runs on identical inputs produce identical results. -/
theorem c9_fit_reproducible (acosDeg : ℚ → ℚ) (pcaAxis : List Vec3 → Vec3) :
    (∀ (pts1 pts2 : List Vec3) (it1 it2 : Nat) (thr1 thr2 : ℚ) (mi1 mi2 s1 s2 : Nat),
      pts1 = pts2 → it1 = it2 → thr1 = thr2 → mi1 = mi2 → s1 = s2 →
      ransac_fit_line pcaAxis pts1 it1 thr1 mi1 s1 =
        ransac_fit_line pcaAxis pts2 it2 thr2 mi2 s2) ∧
    (∀ (pts1 pts2 : List Vec3) (e1 e2 t1 t2 : Vec3) (o1 o2 : List ℚ)
      (ta1 ta2 : Option String) (r1 r2 a1 a2 d1 d2 : ℚ),
      pts1 = pts2 → e1 = e2 → t1 = t2 → o1 = o2 → ta1 = ta2 → r1 = r2 → a1 = a2 → d1 = d2 →
      fit_electrode_axis_and_tip acosDeg pcaAxis pts1 e1 t1 o1 ta1 r1 a1 d1 =
        fit_electrode_axis_and_tip acosDeg pcaAxis pts2 e2 t2 o2 ta2 r2 a2 d2) := by
  constructor
  · intro pts1 pts2 it1 it2 thr1 thr2 mi1 mi2 s1 s2 h1 h2 h3 h4 h5
    subst h1; subst h2; subst h3; subst h4; subst h5
    rfl
  · intro pts1 pts2 e1 e2 t1 t2 o1 o2 ta1 ta2 r1 r2 a1 a2 d1 d2 h1 h2 h3 h4 h5 h6 h7 h8
    subst h1; subst h2; subst h3; subst h4; subst h5; subst h6; subst h7; subst h8
    rfl

theorem c9_fit_reproducible_witness :
    (([⟨0, 0, 1⟩] : List Vec3) = [⟨0, 0, 1⟩] ∧ (0 : Nat) = 0) ∧
    fit_electrode_axis_and_tip (fun _ => 0) (fun _ => ⟨0, 0, 1⟩) [⟨0, 0, 1⟩]
        ⟨0, 0, 0⟩ ⟨0, 0, 10⟩ [1] none 3 12 20 =
      fit_electrode_axis_and_tip (fun _ => 0) (fun _ => ⟨0, 0, 1⟩) [⟨0, 0, 1⟩]
        ⟨0, 0, 0⟩ ⟨0, 0, 10⟩ [1] none 3 12 20 :=
  ⟨⟨rfl, rfl⟩,
    (c9_fit_reproducible (fun _ => 0) (fun _ => ⟨0, 0, 1⟩)).2 [⟨0, 0, 1⟩] [⟨0, 0, 1⟩]
      ⟨0, 0, 0⟩ ⟨0, 0, 0⟩ ⟨0, 0, 10⟩ ⟨0, 0, 10⟩ [1] [1] none none 3 3 12 12 20 20
      rfl rfl rfl rfl rfl rfl rfl rfl⟩

/-! ## `qc.py`: the QC metric engine -/

instance : Inhabited Contact := ⟨⟨"", "", 0, "", ⟨0, 0, 0⟩, ""⟩⟩

/-- `qc._radial_error_mm`: magnitude of the component of `delta`
perpendicular to `axis_unit`. -/
def _radial_error_mm (delta axis : Vec3) : ℚ :=
  vnorm (vsub delta (vsmul (vdot delta axis) axis))

/-- `qc._trajectory_axis_angle_deg` (with the `acosDeg` model of
`math.degrees ∘ math.acos`). -/
def _trajectory_axis_angle_deg (acosDeg : ℚ → ℚ) (planned final : Trajectory) :
    Except String ℚ :=
  match vunit? (vsub planned.end_ planned.start) with
  | none => .error "Zero-length vector"
  | some pa =>
    match vunit? (vsub final.end_ final.start) with
    | none => .error "Zero-length vector"
    | some fa => .ok (acosDeg (max (-1) (min 1 (vdot pa fa))))

/-- The per-trajectory bucket of `sorted_contacts_by_trajectory` for one
name, sorted by contact index (names iterated below are nonempty, so the
empty-name skip of the source is subsumed by the name filter). -/
def contactsFor (contacts : List Contact) (name : String) : List Contact :=
  pySorted (fun a b => decide (a.index < b.index))
    (contacts.filter (fun c => c.trajectory = name))

/-- The sorted key set `sorted(final_by_traj.keys())`. -/
def qcNames (contacts : List Contact) : List String :=
  pySorted pyStrLt ((contacts.map (fun c => c.trajectory)).filter (fun n => n ≠ "")).dedup

/-- `{int(c["index"]): c for c in bucket if int(c["index"]) > 0}` lookup
(dict comprehension: the last contact with a given positive index wins). -/
def idxLookup (l : List Contact) (i : Nat) : Option Contact :=
  (l.filter (fun c => c.index = i ∧ 0 < c.index)).getLast?

/-- The positive contact indices present in a bucket. -/
def idxKeys (l : List Contact) : List Nat :=
  ((l.filter (fun c => 0 < c.index)).map (fun c => c.index)).dedup

/-- `sorted(set(planned) & set(final))`. -/
def matchedIdx (p f : List Contact) : List Nat :=
  pySorted (fun a b => decide (a < b)) ((idxKeys p).filter (fun i => i ∈ idxKeys f))

structure QCRow where
  trajectory : String
  entry_radial_mm : ℚ
  target_radial_mm : ℚ
  mean_contact_radial_mm : ℚ
  max_contact_radial_mm : ℚ
  rms_contact_radial_mm : ℚ
  angle_deg : ℚ
  matched_contacts : Nat
deriving DecidableEq, Repr

/-- One iteration of the `for traj_name in sorted(...)` loop of
`compute_qc_metrics`: `none` models the `continue` branches (missing
trajectory, degenerate planned axis caught by the `try`, no matched
contacts); the error from a degenerate *final* axis is not caught and
propagates. -/
def qcRowFor (acosDeg : ℚ → ℚ) (planned_trajs final_trajs : List (String × Trajectory))
    (planned_contacts final_contacts : List Contact) (name : String) :
    Except String (Option QCRow) :=
  match assocGet planned_trajs name, assocGet final_trajs name with
  | some planned, some final =>
    match vunit? (vsub planned.end_ planned.start) with
    | none => .ok none
    | some planned_axis =>
      let entry_rad := _radial_error_mm (vsub final.start planned.start) planned_axis
      let target_rad := _radial_error_mm (vsub final.end_ planned.end_) planned_axis
      match _trajectory_axis_angle_deg acosDeg planned final with
      | .error e => .error e
      | .ok angle =>
        let pcs := contactsFor planned_contacts name
        let fcs := contactsFor final_contacts name
        let matched := matchedIdx pcs fcs
        if matched = [] then .ok none
        else
          let radial_errors := matched.map (fun i =>
            _radial_error_mm
              (vsub ((idxLookup fcs i).getD default).position_lps
                ((idxLookup pcs i).getD default).position_lps) planned_axis)
          .ok (some
            { trajectory := name
              entry_radial_mm := entry_rad
              target_radial_mm := target_rad
              mean_contact_radial_mm := radial_errors.sum / radial_errors.length
              max_contact_radial_mm := listMax radial_errors
              rms_contact_radial_mm :=
                Rat.sqrt ((radial_errors.map (fun v => v ^ 2)).sum / radial_errors.length)
              angle_deg := angle
              matched_contacts := matched.length })
  | _, _ => .ok none

def qcLoop (acosDeg : ℚ → ℚ) (pt ft : List (String × Trajectory))
    (pc fc : List Contact) : List String → Except String (List QCRow)
  | [] => .ok []
  | n :: rest =>
    match qcRowFor acosDeg pt ft pc fc n with
    | .error e => .error e
    | .ok none => qcLoop acosDeg pt ft pc fc rest
    | .ok (some row) =>
      match qcLoop acosDeg pt ft pc fc rest with
      | .error e => .error e
      | .ok rows => .ok (row :: rows)

/-- `qc.compute_qc_metrics`. -/
def compute_qc_metrics (acosDeg : ℚ → ℚ) (planned_trajectories_by_name
    final_trajectories_by_name : List (String × Trajectory))
    (planned_contacts final_contacts : List Contact) : Except String (List QCRow) :=
  qcLoop acosDeg planned_trajectories_by_name final_trajectories_by_name
    planned_contacts final_contacts (qcNames final_contacts)

theorem vsub_self_zero (v : Vec3) : vsub v v = ⟨0, 0, 0⟩ := by
  simp [vsub]

theorem radial_error_zero_vec (a : Vec3) : _radial_error_mm ⟨0, 0, 0⟩ a = 0 := by
  unfold _radial_error_mm
  apply vnorm_eq_of_sq _ 0 le_rfl
  simp only [vnormSq, vsub, vsmul, vdot]
  ring

theorem foldl_max_zero : ∀ l : List ℚ, (∀ x ∈ l, x = 0) → ∀ acc : ℚ, acc = 0 →
    l.foldl max acc = 0 := by
  intro l
  induction l with
  | nil =>
    intro _ acc hacc
    simpa using hacc
  | cons a as ih =>
    intro h acc hacc
    simp only [List.foldl]
    apply ih (fun x hx => h x (by simp [hx]))
    rw [hacc, h a (by simp)]
    simp

theorem listMax_zeros (l : List ℚ) (h : ∀ x ∈ l, x = 0) : listMax l = 0 := by
  cases l with
  | nil => rfl
  | cons a as =>
    unfold listMax
    exact foldl_max_zero as (fun x hx => h x (by simp [hx])) a (h a (by simp))

theorem assocGet_mem (l : List (String × β)) (k : String) (v : β)
    (h : assocGet l k = some v) : (k, v) ∈ l := by
  induction l with
  | nil => cases h
  | cons p rest ih =>
    unfold assocGet at h
    by_cases hk : p.1 = k
    · rw [if_pos hk] at h
      cases h
      have heq : (k, p.2) = p := by rw [← hk]
      rw [heq]
      left
    · rw [if_neg hk] at h
      exact List.mem_cons_of_mem _ (ih h)

theorem vunit?_dot_self (v u : Vec3) (s : ℚ) (hs : 0 ≤ s)
    (hsq : vnormSq v = s ^ 2) (h : vunit? v = some u) : vdot u u = 1 := by
  have hn : vnorm v = s := vnorm_eq_of_sq v s hs hsq
  unfold vunit? at h
  by_cases hle : vnorm v ≤ 1e-9
  · rw [if_pos hle] at h
    cases h
  · rw [if_neg hle] at h
    have hs0 : s ≠ 0 := by
      intro h0
      apply hle
      rw [hn, h0]
      norm_num
    cases h
    simp only [vdot, hn]
    have hexp : v.x / s * (v.x / s) + v.y / s * (v.y / s) + v.z / s * (v.z / s) =
        vnormSq v / s ^ 2 := by
      simp only [vnormSq]
      field_simp
      ring
    rw [hexp, hsq]
    field_simp

theorem radial_error_vsub_self (x a : Vec3) : _radial_error_mm (vsub x x) a = 0 := by
  rw [vsub_self_zero, radial_error_zero_vec]

theorem listMean_zeros (l : List ℚ) (h : ∀ x ∈ l, x = 0) :
    l.sum / (l.length : ℚ) = 0 := by
  rw [List.sum_eq_zero h]
  simp

theorem rms_expr_zeros (l : List ℚ) (h : ∀ x ∈ l, x = 0) :
    Rat.sqrt ((l.map (fun v => v ^ 2)).sum / (l.length : ℚ)) = 0 := by
  rw [List.sum_eq_zero ?_]
  · simp [ratSqrt_zero]
  · intro x hx
    obtain ⟨y, hy, hxe⟩ := List.mem_map.mp hx
    rw [← hxe, h y hy]
    norm_num

theorem qcRowFor_self_zero (acosDeg : ℚ → ℚ) (T : List (String × Trajectory))
    (C : List Contact)
    (hacos : acosDeg 1 = 0)
    (hex : ∀ p ∈ T, ∃ s, 0 ≤ s ∧ vnormSq (vsub p.2.end_ p.2.start) = s ^ 2)
    (n : String) :
    qcRowFor acosDeg T T C C n = .ok none ∨
    ∃ row, qcRowFor acosDeg T T C C n = .ok (some row) ∧
      row.entry_radial_mm = 0 ∧ row.target_radial_mm = 0 ∧
      row.mean_contact_radial_mm = 0 ∧ row.max_contact_radial_mm = 0 ∧
      row.rms_contact_radial_mm = 0 ∧ row.angle_deg = 0 := by
  cases hT : assocGet T n with
  | none =>
    left
    unfold qcRowFor
    rw [hT]
  | some t =>
    obtain ⟨s, hs0, hsq⟩ := hex (n, t) (assocGet_mem T n t hT)
    cases hu : vunit? (vsub t.end_ t.start) with
    | none =>
      left
      unfold qcRowFor
      rw [hT]
      simp only [hu]
    | some pa =>
      have hdot : vdot pa pa = 1 := vunit?_dot_self _ pa s hs0 hsq hu
      have hangle : _trajectory_axis_angle_deg acosDeg t t = .ok 0 := by
        unfold _trajectory_axis_angle_deg
        rw [hu]
        simp only [hdot]
        rw [show max (-1 : ℚ) (min 1 1) = 1 from by norm_num, hacos]
      by_cases hm : matchedIdx (contactsFor C n) (contactsFor C n) = []
      · left
        unfold qcRowFor
        rw [hT]
        simp only [hu, hangle, if_pos hm]
      · right
        have hallz : ∀ x ∈ (matchedIdx (contactsFor C n) (contactsFor C n)).map (fun i =>
            _radial_error_mm
              (vsub ((idxLookup (contactsFor C n) i).getD default).position_lps
                ((idxLookup (contactsFor C n) i).getD default).position_lps) pa), x = 0 := by
          intro x hx
          obtain ⟨i, _, hxe⟩ := List.mem_map.mp hx
          rw [← hxe, vsub_self_zero, radial_error_zero_vec]
        unfold qcRowFor
        rw [hT]
        simp only [hu, hangle, if_neg hm]
        refine ⟨_, rfl, ?_, ?_, ?_, ?_, ?_, rfl⟩
        · exact radial_error_vsub_self t.start pa
        · exact radial_error_vsub_self t.end_ pa
        · exact listMean_zeros _ hallz
        · exact listMax_zeros _ hallz
        · exact rms_expr_zeros _ hallz

theorem qcLoop_self_zero (acosDeg : ℚ → ℚ) (T : List (String × Trajectory))
    (C : List Contact)
    (hacos : acosDeg 1 = 0)
    (hex : ∀ p ∈ T, ∃ s, 0 ≤ s ∧ vnormSq (vsub p.2.end_ p.2.start) = s ^ 2) :
    ∀ names, ∃ rows, qcLoop acosDeg T T C C names = .ok rows ∧
      ∀ row ∈ rows, row.entry_radial_mm = 0 ∧ row.target_radial_mm = 0 ∧
        row.mean_contact_radial_mm = 0 ∧ row.max_contact_radial_mm = 0 ∧
        row.rms_contact_radial_mm = 0 ∧ row.angle_deg = 0 := by
  intro names
  induction names with
  | nil => exact ⟨[], rfl, by simp⟩
  | cons n rest ih =>
    obtain ⟨rows, hrows, hz⟩ := ih
    rcases qcRowFor_self_zero acosDeg T C hacos hex n with h | ⟨row, hrow, hzr⟩
    · refine ⟨rows, ?_, hz⟩
      unfold qcLoop
      rw [h]
      simp only []
      exact hrows
    · refine ⟨row :: rows, ?_, ?_⟩
      · unfold qcLoop
        rw [hrow]
        simp only []
        rw [hrows]
      · intro r hr
        rcases List.mem_cons.mp hr with hr | hr
        · subst hr; exact hzr
        · exact hz r hr

/-- C8.  With identical planned and final trajectory maps and contact sets
(and exactly-rational planned lengths so the modelled square root is exact),
`compute_qc_metrics` succeeds and every reported row has all radial metrics
and the angle equal to zero.  Moreover, for a unit axis the radial error is
exactly the magnitude of the perpendicular component of the delta: the
perpendicular component is orthogonal to the axis and the radial error is
invariant under adding any axial component `c·axis` to the delta. -/
theorem c8_qc_metrics_zero_and_radial (acosDeg : ℚ → ℚ)
    (T : List (String × Trajectory)) (C : List Contact)
    (hacos : acosDeg 1 = 0)
    (hex : ∀ p ∈ T, ∃ s, 0 ≤ s ∧ vnormSq (vsub p.2.end_ p.2.start) = s ^ 2) :
    (∃ rows, compute_qc_metrics acosDeg T T C C = .ok rows ∧
      ∀ row ∈ rows, row.entry_radial_mm = 0 ∧ row.target_radial_mm = 0 ∧
        row.mean_contact_radial_mm = 0 ∧ row.max_contact_radial_mm = 0 ∧
        row.rms_contact_radial_mm = 0 ∧ row.angle_deg = 0) ∧
    (∀ delta axis : Vec3, vnormSq axis = 1 →
      _radial_error_mm delta axis = vnorm (vsub delta (vsmul (vdot delta axis) axis)) ∧
      vdot (vsub delta (vsmul (vdot delta axis) axis)) axis = 0 ∧
      ∀ c : ℚ, _radial_error_mm (vadd delta (vsmul c axis)) axis =
        _radial_error_mm delta axis) := by
  constructor
  · exact qcLoop_self_zero acosDeg T C hacos hex (qcNames C)
  · intro delta axis h1
    refine ⟨rfl, ?_, ?_⟩
    · simp only [vdot, vsub, vsmul, vnormSq] at h1 ⊢
      linear_combination (-(delta.x * axis.x + delta.y * axis.y + delta.z * axis.z)) * h1
    · intro c
      have hveq : vsub (vadd delta (vsmul c axis))
          (vsmul (vdot (vadd delta (vsmul c axis)) axis) axis) =
          vsub delta (vsmul (vdot delta axis) axis) := by
        simp only [vadd, vsub, vsmul, vdot, vnormSq, Vec3.mk.injEq] at h1 ⊢
        refine ⟨?_, ?_, ?_⟩
        · linear_combination (-(c * axis.x)) * h1
        · linear_combination (-(c * axis.y)) * h1
        · linear_combination (-(c * axis.z)) * h1
      unfold _radial_error_mm
      rw [hveq]

def c8Traj : Trajectory := ⟨"T", ⟨0, 0, 0⟩, ⟨0, 0, 10⟩⟩

def c8Trajs : List (String × Trajectory) := [("T", c8Traj)]

def c8Contacts : List Contact := [⟨"T", "M", 1, "T1", ⟨0, 0, 8⟩, "target"⟩]

theorem c8_qc_metrics_zero_and_radial_witness :
    ((fun _ : ℚ => (0 : ℚ)) 1 = 0 ∧
      (∀ p ∈ c8Trajs, ∃ s, 0 ≤ s ∧ vnormSq (vsub p.2.end_ p.2.start) = s ^ 2) ∧
      vnormSq (⟨1, 0, 0⟩ : Vec3) = 1) ∧
    (∃ rows, compute_qc_metrics (fun _ => 0) c8Trajs c8Trajs c8Contacts c8Contacts = .ok rows ∧
      ∀ row ∈ rows, row.entry_radial_mm = 0 ∧ row.target_radial_mm = 0 ∧
        row.mean_contact_radial_mm = 0 ∧ row.max_contact_radial_mm = 0 ∧
        row.rms_contact_radial_mm = 0 ∧ row.angle_deg = 0) ∧
    vdot (vsub ⟨1, 2, 3⟩ (vsmul (vdot ⟨1, 2, 3⟩ ⟨1, 0, 0⟩) ⟨1, 0, 0⟩)) ⟨1, 0, 0⟩ = 0 ∧
    _radial_error_mm (vadd ⟨1, 2, 3⟩ (vsmul 5 ⟨1, 0, 0⟩)) ⟨1, 0, 0⟩ =
      _radial_error_mm ⟨1, 2, 3⟩ ⟨1, 0, 0⟩ := by
  have hacos : (fun _ : ℚ => (0 : ℚ)) 1 = 0 := rfl
  have hex : ∀ p ∈ c8Trajs, ∃ s, 0 ≤ s ∧ vnormSq (vsub p.2.end_ p.2.start) = s ^ 2 := by
    intro p hp
    simp only [c8Trajs, List.mem_singleton] at hp
    subst hp
    exact ⟨10, by norm_num, by norm_num [vnormSq, vsub, c8Traj]⟩
  have hunit : vnormSq (⟨1, 0, 0⟩ : Vec3) = 1 := by norm_num [vnormSq]
  obtain ⟨hrows, hrad⟩ := c8_qc_metrics_zero_and_radial (fun _ => 0) c8Trajs c8Contacts hacos hex
  obtain ⟨_, horth, hinv⟩ := hrad ⟨1, 2, 3⟩ ⟨1, 0, 0⟩ hunit
  exact ⟨⟨hacos, hex, hunit⟩, hrows, horth, hinv 5⟩
